import Mathlib

/-!
Verification of the chat-utcp agent core.

This file gives a shallow embedding of the agent-loop core of the chat-utcp
repository: the browser agent `SimplifiedUtcpAgent` (its `stream` loop,
`analyzeTask`, `decideAction` with the JSON-decision extraction, the tool
argument validator, `executeTool`, `estimateTokenCount` and
`summarizeContext`) and, where claims refer to it, the LangGraph agent
`UtcpAgent` (its decision parsing, routing and the `executeTools` guard).

External effects (language-model invocations, tool search, tool execution)
are modelled as oracles collected in an `Env` record, indexed by the loop
iteration that performs the call; state held in instance fields
(`this.messages`) is threaded explicitly.  JavaScript strings are modelled
as Lean strings (the sources are ASCII, so the UTF-16 length used by
`String.prototype.length` coincides with the modelled length on every input
appearing here); parsed JSON is modelled by the inductive `Json` below,
with numbers kept as their lexemes so no floating-point arithmetic is
needed.
-/

set_option maxRecDepth 100000

namespace ChatUtcp

/-- Role of a conversation message, as reported by LangChain messages:
`SystemMessage` / `HumanMessage` / `AIMessage`. -/
inductive Role where
  | system
  | human
  | ai
deriving DecidableEq, Repr

/-- One conversation message: the role tag together with the text content. -/
structure Message where
  role : Role
  content : String
deriving DecidableEq, Repr

/-- JSON values as produced by `JSON.parse`.  Object fields are kept in
source order (duplicate keys are resolved by `lookupLast`, mirroring the
last-wins behaviour of `JSON.parse`).  Numbers are kept as their lexeme. -/
inductive Json where
  | null
  | bool (b : Bool)
  | num (lexeme : String)
  | str (s : String)
  | arr (elems : List Json)
  | obj (fields : List (String × Json))
deriving Repr

mutual

/-- Structural equality test on JSON values. -/
def Json.beq : Json → Json → Bool
  | .null, .null => true
  | .bool a, .bool b => a == b
  | .num a, .num b => a == b
  | .str a, .str b => a == b
  | .arr a, .arr b => Json.beqElems a b
  | .obj a, .obj b => Json.beqEntries a b
  | _, _ => false

/-- Elementwise equality test on JSON arrays. -/
def Json.beqElems : List Json → List Json → Bool
  | [], [] => true
  | a :: as, b :: bs => Json.beq a b && Json.beqElems as bs
  | _, _ => false

/-- Elementwise equality test on JSON object field lists. -/
def Json.beqEntries (xs ys : List (String × Json)) : Bool :=
  match xs, ys with
  | (ka, va) :: as, (kb, vb) :: bs => ka == kb && Json.beq va vb && Json.beqEntries as bs
  | [], [] => true
  | _, _ => false

end

instance : BEq Json := ⟨Json.beq⟩

/-- Whether one character list begins with another (used for substring
search; literal-by-literal comparison like JavaScript `includes`). -/
def leadMatch (pat hay : List Char) : Bool :=
  match pat, hay with
  | [], _ => true
  | p :: ps, q :: qs => if p == q then leadMatch ps qs else false
  | _ :: _, [] => false

/-- Index of the first occurrence of `pat` in the list, starting at offset
`i` (the offset is only used to report the absolute index). -/
def findSubAux (pat : List Char) : List Char → Nat → Option Nat
  | [], i => if leadMatch pat [] then some i else none
  | c :: rest, i =>
    if leadMatch pat (c :: rest) then some i else findSubAux pat rest (i + 1)

/-- JavaScript `hay.includes(needle)` on our strings. -/
def substrB (needle hay : String) : Bool :=
  (findSubAux needle.toList hay.toList 0).isSome

/-- Whitespace recognised by the JavaScript `\s` class and `trim()` on the
inputs appearing in this development (space, tab, newline, carriage return,
vertical tab, form feed). -/
def isWsChar (c : Char) : Bool :=
  [' ', '\t', '\n', '\r', '\x0b', '\x0c'].contains c

/-- Strip leading and trailing whitespace from a character list. -/
def trimChars (l : List Char) : List Char :=
  ((l.dropWhile isWsChar).reverse.dropWhile isWsChar).reverse

/-- JavaScript `String.prototype.trim()`. -/
def trimStr (s : String) : String :=
  String.mk (trimChars s.toList)

/-- Whitespace accepted between JSON tokens by `JSON.parse` (RFC 8259). -/
def skipWsJ : List Char → List Char :=
  List.dropWhile (fun c => [' ', '\t', '\n', '\r'].contains c)

/-- Value of a hexadecimal digit, if the character is one (code points
48-57, 97-102 and 65-70 are the three digit ranges). -/
def hexVal (c : Char) : Option Nat :=
  let n := c.toNat
  if 48 ≤ n && n ≤ 57 then some (n - 48)
  else if 97 ≤ n && n ≤ 102 then some (n - 87)
  else if 65 ≤ n && n ≤ 70 then some (n - 55)
  else none

/-- Body of a JSON string literal, after the opening quote: returns the
decoded string and the rest of the input after the closing quote.  Escapes
follow `JSON.parse`; raw control characters are rejected.  A `\u` escape
denoting a lone UTF-16 surrogate is not a valid Lean character and decodes
to NUL here; no input in this development contains one. -/
def parseStrAux : List Char → List Char → Option (String × List Char)
  | [], _ => none
  | c :: rest, acc =>
    if c == '\x22' then some (String.mk acc.reverse, rest)
    else if c == '\\' then
      match rest with
      | [] => none
      | e :: r2 =>
        if e == '\x22' then parseStrAux r2 ('\x22' :: acc)
        else if e == '\\' then parseStrAux r2 ('\\' :: acc)
        else if e == '/' then parseStrAux r2 ('/' :: acc)
        else if e == 'b' then parseStrAux r2 ('\x08' :: acc)
        else if e == 'f' then parseStrAux r2 ('\x0c' :: acc)
        else if e == 'n' then parseStrAux r2 ('\n' :: acc)
        else if e == 'r' then parseStrAux r2 ('\r' :: acc)
        else if e == 't' then parseStrAux r2 ('\t' :: acc)
        else if e == 'u' then
          match r2 with
          | h1 :: h2 :: h3 :: h4 :: r3 =>
            match hexVal h1, hexVal h2, hexVal h3, hexVal h4 with
            | some a, some b, some c2, some d =>
              parseStrAux r3 (Char.ofNat (((a * 16 + b) * 16 + c2) * 16 + d) :: acc)
            | _, _, _, _ => none
          | _ => none
        else none
    else if c.toNat < 32 then none
    else parseStrAux rest (c :: acc)

/-- Digits of a JSON number, greedily. -/
def takeDigits : List Char → List Char × List Char
  | [] => ([], [])
  | c :: rest =>
    if c.isDigit then
      let (ds, r) := takeDigits rest
      (c :: ds, r)
    else ([], c :: rest)

/-- Lexeme of a JSON number (`-? int frac? exp?`, RFC 8259), returned
together with the rest of the input; fails if the prefix is not a number. -/
def parseNum (cs : List Char) : Option (String × List Char) :=
  let (sign, r0) :=
    match cs with
    | '-' :: r => (['-'], r)
    | r => (([] : List Char), r)
  match takeDigits r0 with
  | ([], _) => none
  | (d :: ds, r1) =>
    if d == '0' && ds ≠ [] then none
    else
      let intPart := d :: ds
      let (fracPart, r2) :=
        match r1 with
        | '.' :: r => match takeDigits r with
          | ([], _) => ([], '.' :: r)
          | (fs, rf) => ('.' :: fs, rf)
        | r => ([], r)
      if fracPart == [] && (match r1 with | '.' :: _ => true | _ => false) then none
      else
        let (expPart, r3) :=
          match r2 with
          | e :: r =>
            if e == 'e' || e == 'E' then
              match r with
              | s :: r4 =>
                if s == '+' || s == '-' then
                  match takeDigits r4 with
                  | ([], _) => ([], e :: r)
                  | (es, re) => ([e, s] ++ es, re)
                else
                  match takeDigits r with
                  | ([], _) => ([], e :: r)
                  | (es, re) => (e :: es, re)
              | [] => ([], [e])
            else ([], e :: r)
          | [] => ([], [])
        if expPart == [] && (match r2 with | e :: _ => e == 'e' || e == 'E' | _ => false) then none
        else some (String.mk (sign ++ intPart ++ fracPart ++ expPart), r3)

mutual

/-- Recursive-descent JSON value parser (the `fuel` argument only bounds
the recursion; `jsonParse` supplies enough of it for any input). -/
def parseVal : Nat → List Char → Option (Json × List Char)
  | 0, _ => none
  | f + 1, cs =>
    match skipWsJ cs with
    | [] => none
    | c :: rest =>
      if c == '\x7b' then parseObj f (skipWsJ rest)
      else if c == '[' then parseArr f (skipWsJ rest)
      else if c == '\x22' then
        match parseStrAux rest [] with
        | some (s, r) => some (Json.str s, r)
        | none => none
      else if c == '-' || c.isDigit then
        match parseNum (c :: rest) with
        | some (l, r) => some (Json.num l, r)
        | none => none
      else if leadMatch "true".toList (c :: rest) then some (Json.bool true, (c :: rest).drop 4)
      else if leadMatch "false".toList (c :: rest) then some (Json.bool false, (c :: rest).drop 5)
      else if leadMatch "null".toList (c :: rest) then some (Json.null, (c :: rest).drop 4)
      else none

/-- JSON object body, after the opening brace and any whitespace. -/
def parseObj : Nat → List Char → Option (Json × List Char)
  | 0, _ => none
  | f + 1, cs =>
    match cs with
    | '\x7d' :: rest => some (Json.obj [], rest)
    | _ => parseMembers f cs []

/-- Members of a JSON object. -/
def parseMembers : Nat → List Char → List (String × Json) → Option (Json × List Char)
  | 0, _, _ => none
  | f + 1, cs, acc =>
    match cs with
    | '\x22' :: rest =>
      match parseStrAux rest [] with
      | none => none
      | some (k, r1) =>
        match skipWsJ r1 with
        | ':' :: r2 =>
          match parseVal f r2 with
          | none => none
          | some (v, r3) =>
            match skipWsJ r3 with
            | ',' :: r4 => parseMembers f (skipWsJ r4) (acc ++ [(k, v)])
            | '\x7d' :: r4 => some (Json.obj (acc ++ [(k, v)]), r4)
            | _ => none
        | _ => none
    | _ => none

/-- JSON array body, after the opening bracket and any whitespace. -/
def parseArr : Nat → List Char → Option (Json × List Char)
  | 0, _ => none
  | f + 1, cs =>
    match cs with
    | ']' :: rest => some (Json.arr [], rest)
    | _ => parseElems f cs []

/-- Elements of a JSON array. -/
def parseElems : Nat → List Char → List Json → Option (Json × List Char)
  | 0, _, _ => none
  | f + 1, cs, acc =>
    match parseVal f cs with
    | none => none
    | some (v, r) =>
      match skipWsJ r with
      | ',' :: r2 => parseElems f r2 (acc ++ [v])
      | ']' :: r2 => some (Json.arr (acc ++ [v]), r2)
      | _ => none

end

/-- JavaScript `JSON.parse`: parse one value and require that only
whitespace follows; `none` models a thrown `SyntaxError`. -/
def jsonParse (s : String) : Option Json :=
  let cs := s.toList
  match parseVal (4 * cs.length + 4) cs with
  | some (v, rest) => if skipWsJ rest == [] then some v else none
  | none => none

/-- JavaScript truthiness of a JSON value (objects and arrays are truthy;
`null`, `false`, the empty string and zero are falsy).  A number lexeme
denotes zero exactly when all digits of its mantissa — the part before any
exponent marker — are zero (so 0e5 is falsy). -/
def Json.truthy : Json → Bool
  | .null => false
  | .bool b => b
  | .str s => !(s.toList.isEmpty)
  | .num lex =>
    !(((lex.toList.takeWhile (fun c => !(c == 'e' || c == 'E'))).filter
        (fun c => c.isDigit)).all (fun c => c == '0'))
  | .arr _ => true
  | .obj _ => true

/-- Truthiness of a possibly-absent (JavaScript `undefined`) value. -/
def truthyOpt : Option Json → Bool
  | none => false
  | some v => v.truthy

/-- Last binding of a key in an object field list (`JSON.parse` keeps the
last of duplicate keys). -/
def lookupLast (fields : List (String × Json)) (k : String) : Option Json :=
  match fields with
  | [] => none
  | (k', v) :: rest =>
    match lookupLast rest k with
    | some r => some r
    | none => if k' == k then some v else none

/-- Property read `v[k]` on a parsed JSON value: defined on objects, and
`undefined` (here `none`) on arrays and primitives, which carry no own
string-named properties after `JSON.parse`.  Reading a property of `null`
throws in JavaScript; the call sites below handle the `null` case before
using this function. -/
def getField : Json → String → Option Json
  | Json.obj fields, k => lookupLast fields k
  | _, _ => none

mutual

/-- Rendering of a JSON value by a JavaScript template literal
(`String(v)`).  Number lexemes and nested array elements are rendered as
written, an adequate approximation for every input in this development. -/
def jsDisplayV : Json → String
  | .null => "null"
  | .bool b => cond b "true" "false"
  | .num lex => lex
  | .str s => s
  | .arr es => jsDisplayList es
  | .obj _ => "[object Object]"

/-- Comma-joined rendering of array elements, as `Array.prototype.toString`. -/
def jsDisplayList : List Json → String
  | [] => ""
  | [x] => jsDisplayV x
  | x :: xs => jsDisplayV x ++ "," ++ jsDisplayList xs

end

/-- Rendering of a possibly-absent value in a template literal
(`undefined` prints as the string "undefined"). -/
def jsDisplay : Option Json → String
  | none => "undefined"
  | some v => jsDisplayV v

/-- Escape of one character inside a JSON string literal, as produced by
`JSON.stringify`. -/
def escJsonChar (c : Char) : List Char :=
  if c == '\x22' then ['\\', '\x22']
  else if c == '\\' then ['\\', '\\']
  else if c == '\n' then ['\\', 'n']
  else if c == '\r' then ['\\', 'r']
  else if c == '\t' then ['\\', 't']
  else if c == '\x08' then ['\\', 'b']
  else if c == '\x0c' then ['\\', 'f']
  else if c.toNat < 32 then
    let hexDigit := fun (n : Nat) => Char.ofNat (if n < 10 then 48 + n else 87 + n)
    ['\\', 'u', '0', '0', hexDigit (c.toNat / 16), hexDigit (c.toNat % 16)]
  else [c]

/-- Quoted form of a string, as produced by `JSON.stringify`. -/
def quoteJson (s : String) : String :=
  String.mk ('\x22' :: (s.toList.flatMap escJsonChar) ++ ['\x22'])

mutual

/-- Compact `JSON.stringify(v)`.  Number lexemes are emitted as written. -/
def stringifyV : Json → String
  | .null => "null"
  | .bool b => cond b "true" "false"
  | .num lex => lex
  | .str s => quoteJson s
  | .arr es => "[" ++ stringifyArr es ++ "]"
  | .obj fs => "\x7b" ++ stringifyObj fs ++ "\x7d"

/-- Comma-joined compact form of array elements. -/
def stringifyArr : List Json → String
  | [] => ""
  | [x] => stringifyV x
  | x :: xs => stringifyV x ++ "," ++ stringifyArr xs

/-- Comma-joined compact form of object members. -/
def stringifyObj : List (String × Json) → String
  | [] => ""
  | [(k, v)] => quoteJson k ++ ":" ++ stringifyV v
  | (k, v) :: fs => quoteJson k ++ ":" ++ stringifyV v ++ "," ++ stringifyObj fs

end

/-- Spaces used by `JSON.stringify(v, null, 2)` at a given indent depth. -/
def indentSp (n : Nat) : String :=
  String.mk (List.replicate n ' ')

mutual

/-- Pretty `JSON.stringify(v, null, 2)` of a value that sits at indent
depth `ind`. -/
def stringify2V : Nat → Json → String
  | _, .null => "null"
  | _, .bool b => cond b "true" "false"
  | _, .num lex => lex
  | _, .str s => quoteJson s
  | _, .arr [] => "[]"
  | ind, .arr (e :: es) => "[\n" ++ stringify2Arr ind (e :: es) ++ "\n" ++ indentSp ind ++ "]"
  | _, .obj [] => "\x7b\x7d"
  | ind, .obj (f :: fs) => "\x7b\n" ++ stringify2Obj ind (f :: fs) ++ "\n" ++ indentSp ind ++ "\x7d"

/-- Elements of a pretty-printed array, one per line. -/
def stringify2Arr : Nat → List Json → String
  | _, [] => ""
  | ind, [x] => indentSp (ind + 2) ++ stringify2V (ind + 2) x
  | ind, x :: xs => indentSp (ind + 2) ++ stringify2V (ind + 2) x ++ ",\n" ++ stringify2Arr ind xs

/-- Members of a pretty-printed object, one per line. -/
def stringify2Obj : Nat → List (String × Json) → String
  | _, [] => ""
  | ind, [(k, v)] => indentSp (ind + 2) ++ quoteJson k ++ ": " ++ stringify2V (ind + 2) v
  | ind, (k, v) :: fs =>
    indentSp (ind + 2) ++ quoteJson k ++ ": " ++ stringify2V (ind + 2) v ++ ",\n" ++ stringify2Obj ind fs

end

/-- JavaScript `JSON.stringify(v, null, 2)`. -/
def stringify2 (v : Json) : String :=
  stringify2V 0 v

/-!
Decision extraction (`SimplifiedUtcpAgent.decideAction`, part of the
DecisionParser of the specification).
-/

/-- Model of the code-fence pattern match in the simplified agent,
`response.match(&grave;&grave;&grave;json...)` followed by `.trim()` of its
first capture group: the first occurrence of the opening fence, closed by
the earliest later occurrence of three backticks, the interior trimmed.
Returns `none` when the pattern does not match. -/
def fenceExtract (s : String) : Option String :=
  let cs := s.toList
  match findSubAux ("```json".toList) cs 0 with
  | none => none
  | some i =>
    let afterOpen := cs.drop (i + 7)
    match findSubAux ("```".toList) afterOpen 0 with
    | none => none
    | some k => some (String.mk (trimChars (afterOpen.take k)))

/-- Balanced-brace scan of the simplified agent's decision parser, begun at
the first brace: walks the characters tracking brace depth, treating
characters under a pending backslash escape and braces inside string
literals as non-structural, and returns the consumed prefix up to and
including the brace that returns the depth to zero (`none` when the depth
never returns to zero). -/
def scanSpan : List Char → Nat → Bool → Bool → Option (List Char)
  | [], _, _, _ => none
  | c :: cs, depth, inString, escape =>
    if escape then (scanSpan cs depth inString false).map (c :: ·)
    else if c == '\\' then (scanSpan cs depth inString true).map (c :: ·)
    else if c == '\x22' then (scanSpan cs depth (!inString) escape).map (c :: ·)
    else if !inString && c == '\x7b' then (scanSpan cs (depth + 1) inString escape).map (c :: ·)
    else if !inString && c == '\x7d' then
      if depth == 1 then some [c]
      else (scanSpan cs (depth - 1) inString escape).map (c :: ·)
    else (scanSpan cs depth inString escape).map (c :: ·)

/-- Suffix of the list starting at the first opening brace, if any
(`response.indexOf(...)` in the source). -/
def fromFirstBrace : List Char → Option (List Char)
  | [] => none
  | c :: cs => if c == '\x7b' then some (c :: cs) else fromFirstBrace cs

/-- Brace-scanner extraction of the simplified agent: the substring from
the first opening brace to its matching closing brace. -/
def braceExtract (s : String) : Option String :=
  match fromFirstBrace s.toList with
  | none => none
  | some suffix => (scanSpan suffix 0 false false).map (fun pre => String.mk pre)

/-- Combined JSON-span extraction of `SimplifiedUtcpAgent.decideAction`:
the fenced block is preferred, then the brace scanner.  The caller
(`decideParsePhase`) applies the source's falsy check to the result, which
also catches an extracted empty span. -/
def extractJsonStr (response : String) : Option String :=
  match fenceExtract response with
  | some js => some js
  | none => braceExtract response

/-- Fields of the value returned by `decideAction` that its caller reads
(the source returns either a fresh record or the parsed, possibly mutated,
JSON object; extra fields of the latter are never read). -/
structure ParsedDecision where
  action : Option Json
  toolName : Option Json
  arguments : Option Json
  message : Option Json
deriving Repr, BEq

/-- Literal `return (action respond)` record of the source, with no message. -/
def respondPlain : ParsedDecision :=
  ⟨some (Json.str "respond"), none, none, none⟩

/-- Literal `return (action respond, message m)` record of the source. -/
def respondMsg (m : String) : ParsedDecision :=
  ⟨some (Json.str "respond"), none, none, some (Json.str m)⟩

/-- Result of `validateToolArguments`. -/
inductive ValResult where
  | valid
  | invalid (error : String)
deriving DecidableEq, Repr

/-- Tool descriptor as read by the agent: name, description and the
declared input schema (`inputs` is absent, i.e. JavaScript `undefined`,
when the descriptor carries none). -/
structure Tool where
  name : String
  description : String
  inputs : Option Json

/-- Names of the declared required inputs of a descriptor whose `inputs` is
an array: the items with a `required` field strictly equal to `true`,
mapped to their `name` field (rendered as a property key).  Returns `none`
when reading a field of an item throws (a `null` item), which the source
catches and treats as unvalidatable. -/
def requiredNames (items : List Json) : Option (List String) :=
  if items.any (fun i => match i with | Json.null => true | _ => false) then none
  else
    some (((items.filter (fun i =>
        match getField i "required" with
        | some (Json.bool true) => true
        | _ => false)).map (fun i => jsDisplay (getField i "name"))))

/-- String-keyed properties every plain JavaScript object inherits from
Object.prototype; the `in` operator sees them on any object produced by
`JSON.parse`, since `in` traverses the prototype chain. -/
def objectProtoKeys : List String :=
  ["constructor", "hasOwnProperty", "isPrototypeOf", "propertyIsEnumerable",
   "toLocaleString", "toString", "valueOf", "__proto__",
   "__defineGetter__", "__defineSetter__", "__lookupGetter__", "__lookupSetter__"]

/-- String-keyed properties a JavaScript array carries beyond its index
keys: its own `length` plus the standard Array.prototype method names and,
further up the chain, the Object.prototype names. -/
def arrayProtoKeys : List String :=
  ["length", "at", "concat", "copyWithin", "entries", "every", "fill",
   "filter", "find", "findIndex", "findLast", "findLastIndex", "flat",
   "flatMap", "forEach", "includes", "indexOf", "join", "keys",
   "lastIndexOf", "map", "pop", "push", "reduce", "reduceRight", "reverse",
   "shift", "slice", "some", "sort", "splice", "toReversed", "toSorted",
   "toSpliced", "unshift", "values", "with"] ++ objectProtoKeys

/-- JavaScript `k in args` on the values reachable here: for an object, its
own keys plus the names inherited from Object.prototype; for an array, its
index strings plus `length`, the Array.prototype names and the inherited
Object.prototype names; a throw (handled by the caller) on primitives. -/
def hasKey (args : Json) (k : String) : Bool :=
  match args with
  | Json.obj fields => fields.any (fun p => p.1 == k) || objectProtoKeys.contains k
  | Json.arr elems =>
    (List.range elems.length).any (fun i => toString i == k) || arrayProtoKeys.contains k
  | _ => false

/-- Whether the `in` operator is applicable (objects and arrays); on other
values it throws, which `validateToolArguments` catches and converts into
a pass. -/
def isObjLike : Json → Bool
  | Json.obj _ => true
  | Json.arr _ => true
  | _ => false

/-- Whether a JSON value is `null` (reading a property of `null` throws a
`TypeError` in JavaScript). -/
def isNullJson : Json → Bool
  | Json.null => true
  | _ => false

/-- Strict equality `t.name === toolName` between a descriptor name and the
decision's (arbitrary JSON) tool name. -/
def nameMatches (toolName : Option Json) (name : String) : Bool :=
  match toolName with
  | some (Json.str s) => s == name
  | _ => false

/-- Model of `SimplifiedUtcpAgent.validateToolArguments`: find the
descriptor by name (unknown name is invalid), pass when it declares no
inputs or its inputs are not an array, otherwise report the declared
required names missing from the supplied argument keys.  The source wraps
the required-parameter check in a try/catch that turns any throw into a
pass; the throwing cases (a `null` schema item, a primitive argument value)
are the `none` branch of `requiredNames` and the non-object-like `args`
branch here. -/
def validateToolArguments (toolName : Option Json) (args : Json) (tools : List Tool) : ValResult :=
  match tools.find? (fun t => nameMatches toolName t.name) with
  | none => .invalid ("Tool " ++ jsDisplay toolName ++ " not found")
  | some t =>
    if !(truthyOpt t.inputs) then .valid
    else
      match t.inputs with
      | some (Json.arr items) =>
        match requiredNames items with
        | none => .valid
        | some req =>
          if isObjLike args then
            let missing := req.filter (fun p => !(hasKey args p))
            if missing.isEmpty then .valid
            else .invalid ("Missing required parameters: " ++ ", ".intercalate missing)
          else .valid
      | _ => .valid

/-- Value of the local `action` variable before the end-to-respond
rewrite: the parsed object's `action` field when truthy, else "respond"
(`decision.action || "respond"` in the source). -/
def decisionActionRaw (v : Json) : Json :=
  match getField v "action" with
  | some a => if a.truthy then a else Json.str "respond"
  | none => Json.str "respond"

/-- The `action` field of the object `decideAction` returns: the source
mutates the field to "respond" exactly when the local action was "end". -/
def decisionActionOut (v : Json) : Option Json :=
  if decisionActionRaw v == Json.str "end" then some (Json.str "respond")
  else getField v "action"

/-- Tool name after the `tool_name` normalization: the source copies
`tool_name` over `toolName` when the former is truthy. -/
def decisionToolName (v : Json) : Option Json :=
  let tn := getField v "tool_name"
  if truthyOpt tn then tn else getField v "toolName"

/-- Arguments as passed to validation and execution
(`decision.arguments || empty-object`). -/
def decisionArgs (v : Json) : Json :=
  match getField v "arguments" with
  | some a => if a.truthy then a else Json.obj []
  | none => Json.obj []

/-- Corrective assistant message pushed onto the history when validation of
a proposed tool call fails. -/
def validationCorrective (toolName : Option Json) (e : String) : Message :=
  ⟨Role.ai, "I attempted to call " ++ jsDisplay toolName ++ " but encountered an error: " ++ e ++
    ". Let me try again with the correct parameters."⟩

/-- Handling of a successfully extracted JSON span by
`SimplifiedUtcpAgent.decideAction`: parse it, read the decision fields
(a parse failure, or the `TypeError` thrown by reading a field of `null`,
is caught and degrades to a respond decision carrying the raw response),
rewrite an "end" action to "respond", normalize the tool name, and validate
a proposed tool call, on failure pushing a corrective message and resolving
the iteration as a respond decision carrying the validation error. -/
def handleParsedJson (js : String) (response : String) (tools : List Tool)
    (msgs : List Message) : ParsedDecision × List Message :=
  match jsonParse js with
  | none => (respondMsg response, msgs)
  | some v =>
    if isNullJson v then (respondMsg response, msgs)
    else
      let action := decisionActionRaw v
      let action := if action == Json.str "end" then Json.str "respond" else action
      let tn := decisionToolName v
      if action == Json.str "call_tool" then
        match validateToolArguments tn (decisionArgs v) tools with
        | .valid => (⟨decisionActionOut v, tn, getField v "arguments", getField v "message"⟩, msgs)
        | .invalid e =>
          (respondMsg ("Tool argument validation failed: " ++ e),
           msgs ++ [validationCorrective tn e])
      else (⟨decisionActionOut v, tn, getField v "arguments", getField v "message"⟩, msgs)

/-- Pure core of `SimplifiedUtcpAgent.decideAction` after the model call:
extract a JSON span (fenced block, then brace scan) and hand it to
`handleParsedJson`.  The source then checks `if (!jsonStr)`, a falsy test
that fires both when no span was found and when the extracted span is the
empty string (a fenced block with whitespace-only interior): in either case
the decision defaults to a plain respond with no message. -/
def decideParsePhase (response : String) (tools : List Tool)
    (msgs : List Message) : ParsedDecision × List Message :=
  match extractJsonStr response with
  | none => (respondPlain, msgs)
  | some js =>
    if js == "" then (respondPlain, msgs)
    else handleParsedJson js response tools msgs

/-!
The agent loop (`SimplifiedUtcpAgent.stream` and its phases).
-/

/-- Agent configuration (all fields resolved to their values, as the
constructor does with its defaults 3 / 10 / default prompt / 80000). -/
structure AgentConfig where
  maxIterations : Nat
  maxToolsPerSearch : Nat
  systemPrompt : String
  summarizeThreshold : Nat

/-- External capabilities used by one run, as oracles indexed by the
iteration that performs the call: the model responses returned by
`callLLM` for the analyze / decide / summarize / respond prompts (an
`Except.error` models a thrown model invocation error, carrying its
rendered message), the tool search result, and the tool execution and
required-variable lookups of the UTCP client. -/
structure Env where
  analyzeLLM : Nat → Except String String
  searchTools : Nat → String → List Tool
  decideLLM : Nat → Except String String
  summarizeLLM : Nat → Except String String
  callTool : Nat → Option Json → Json → Except String Json
  requiredVars : Nat → Option Json → Except String (List String)
  respondLLM : Nat → Except String String

/-- Replacement of the summarizer oracle, leaving every other capability
unchanged (used to state that the stored history does not depend on it). -/
def setSummarizer (e : Env) (f : Nat → Except String String) : Env :=
  ⟨e.analyzeLLM, e.searchTools, e.decideLLM, f, e.callTool, e.requiredVars, e.respondLLM⟩

/-- Model of `estimateTokenCount`: the character counts of all message
contents summed and divided by four, rounding down. -/
def estimateTokenCount (messages : List Message) : Nat :=
  (messages.foldl (fun acc m => acc + m.content.length) 0) / 4

/-- Model of `summarizeContext`: keep the system messages; when at most
two non-system messages exist return the input unchanged; otherwise replace
all but the last two non-system messages by one synthetic user message
holding the model-produced summary, or drop them silently when the
summarization model call fails. -/
def summarizeContext (messages : List Message) (llmResult : Except String String) : List Message :=
  let systemMessages := messages.filter (fun m => m.role == Role.system)
  let nonSystemMessages := messages.filter (fun m => !(m.role == Role.system))
  let recentCount := 2
  if nonSystemMessages.length ≤ recentCount then messages
  else
    let recentMessages := nonSystemMessages.drop (nonSystemMessages.length - recentCount)
    match llmResult with
    | .ok summary => systemMessages ++ [⟨Role.human, "Conversation summary: " ++ summary⟩] ++ recentMessages
    | .error _ => systemMessages ++ recentMessages

/-- Combined system prompt built by `analyzeTask`. -/
def analyzeCombinedPrompt (cfg : AgentConfig) : String :=
  cfg.systemPrompt ++ "\n\nBased on the conversation history, what is the next step that needs to be accomplished? Respond with a concise next step description. Do not include \u0027the next step is\u0027 just the next step description."

/-- Serialized tool descriptors embedded in the decision prompt: the
descriptors mapped to name / description / inputs / note records and
pretty-printed with indent 2 (an absent input schema is omitted by
`JSON.stringify`). -/
def toolPromptJson (t : Tool) : Json :=
  Json.obj ([("name", Json.str t.name), ("description", Json.str t.description)] ++
    (match t.inputs with | some v => [("inputs", v)] | none => []) ++
    [("note", Json.str "Ensure all required parameters are provided. Common required parameters include: country, sources, category, q, pageSize, page, sortBy")])

/-- Tools section of the decision prompt. -/
def decideToolsText (tools : List Tool) : String :=
  if tools.isEmpty then "No tools available"
  else stringify2 (Json.arr (tools.map toolPromptJson))

/-- Whether the history holds recent missing-parameter error feedback
(drives an extra CRITICAL line of the decision prompt). -/
def hasRecentError (msgs : List Message) : Bool :=
  msgs.any (fun m =>
    m.role == Role.human && substrB "Error:" m.content && substrB "required parameter" m.content)

/-- Decision prompt text of `SimplifiedUtcpAgent.decideAction`. -/
def decidePromptText (task : String) (tools : List Tool) (msgs : List Message) : String :=
  "Given the current task: \"" ++ task ++ "\"\n\nAvailable tools:\n" ++ decideToolsText tools ++
  "\n\nBased on the conversation and available tools, decide what to do next:\n1. If you have suitable tools available AND need to use them to accomplish the task, respond with: \x7b\"action\": \"call_tool\", \"tool_name\": \"tool.name\", \"arguments\": \x7b\"arg1\": \"value1\"\x7d\x7d\n   - IMPORTANT: Include ALL required parameters in the arguments. If you\u0027re unsure about required parameters, include common ones like country, sources, category, q, pageSize, page, sortBy as appropriate.\n" ++
  (if hasRecentError msgs then "   - CRITICAL: There was a recent error about missing parameters. You MUST retry the tool call with the missing parameter included. Do NOT choose \"respond\"." else "") ++
  "\n2. If no suitable tools are available OR you can answer directly, respond with: \x7b\"action\": \"respond\"\x7d\n\nIMPORTANT: Even if no tools are available, you should ALWAYS choose \"respond\" to provide a helpful answer to the user. Never choose \"end\" unless the user explicitly says goodbye or the conversation is truly finished.\n\nRespond ONLY with the JSON object, no other text."

/-- Result of the analyze phase: the task string, the stored history after
the phase (the phase never writes it) and the prompt sent to the model. -/
structure AnalyzeResult where
  task : String
  msgs : List Message
  prompt : List Message

/-- Model of `SimplifiedUtcpAgent.analyzeTask`: build the analysis prompt
from the combined system prompt, the non-system history and a trailing cue
message; when its token estimate exceeds the threshold the prompt is
rebuilt from the summarized history (the stored history itself is not
replaced); a model failure degrades the task to "Unknown task". -/
def analyzeTask (cfg : AgentConfig) (env : Env) (it : Nat) (msgs : List Message) : AnalyzeResult :=
  let combined : Message := ⟨Role.system, analyzeCombinedPrompt cfg⟩
  let cue : Message := ⟨Role.human, "The next step is:\n"⟩
  let base := combined :: (msgs.filter (fun m => !(m.role == Role.system))) ++ [cue]
  let prompt := if cfg.summarizeThreshold < estimateTokenCount base then
      combined :: summarizeContext msgs (env.summarizeLLM it) ++ [cue]
    else base
  let task := match env.analyzeLLM it with
    | .ok s => trimStr s
    | .error _ => "Unknown task"
  ⟨task, msgs, prompt⟩

/-- Forced decision returned once the iteration counter reaches the
configured maximum, built without consulting the model. -/
def forcedDecision : ParsedDecision :=
  respondMsg "I\u0027ve reached the maximum number of iterations. Let me provide a response based on what I\u0027ve gathered so far."

/-- Result of the decide phase: the decision, the stored history after the
phase, and the prompt that was (or would have been) sent to the model. -/
structure DecideResult where
  decision : ParsedDecision
  msgs : List Message
  prompt : List Message

/-- Model of `SimplifiedUtcpAgent.decideAction`: return the forced respond
decision once the iteration counter has reached the maximum (no model
call); otherwise build the decision prompt (summarizing the history for the
prompt only when the token estimate exceeds the threshold), consult the
model (a thrown invocation error degrades to a respond decision carrying
the error) and run the parse/validate pipeline. -/
def decideAction (cfg : AgentConfig) (env : Env) (it : Nat) (task : String)
    (tools : List Tool) (msgs : List Message) : DecideResult :=
  if cfg.maxIterations ≤ it then ⟨forcedDecision, msgs, []⟩
  else
    let promptMsg : Message := ⟨Role.human, decidePromptText task tools msgs⟩
    let base := msgs ++ [promptMsg]
    let prompt := if cfg.summarizeThreshold < estimateTokenCount base then
        summarizeContext msgs (env.summarizeLLM it) ++ [promptMsg]
      else base
    match env.decideLLM it with
    | .error e => ⟨respondMsg ("I encountered an error: " ++ e), msgs, prompt⟩
    | .ok response =>
      ⟨(decideParsePhase response tools msgs).1, (decideParsePhase response tools msgs).2, prompt⟩

/-- Result of one tool execution as seen by the stream loop: the returned
value, or the error record the source builds (`recoverable` is set only on
the missing-parameter path). -/
inductive ExecResult where
  | ok (v : Json)
  | err (msg : String) (recoverable : Bool)
deriving Repr

/-- Word characters captured by the missing-parameter pattern. -/
def wordChars (l : List Char) : List Char :=
  l.takeWhile (fun c => c.isAlphanum || c == '_')

/-- Parameter name recovered from a missing-parameter error message (the
source's pattern: after the first "Missing required", skip to the first
colon, skip whitespace, take word characters; anything else falls back to
"unknown parameter"). -/
def extractParam (errMsg : String) : String :=
  match findSubAux ("Missing required".toList) errMsg.toList 0 with
  | none => "unknown parameter"
  | some i =>
    let after := errMsg.toList.drop (i + 16)
    let afterColon := (after.dropWhile (fun c => !(c == ':'))).drop 1
    let w := wordChars (afterColon.dropWhile isWsChar)
    if w.isEmpty then "unknown parameter" else String.mk w

/-- Rendering of the decision's raw arguments field by `JSON.stringify`
inside a template literal (absent renders as "undefined"). -/
def stringifyOpt : Option Json → String
  | none => "undefined"
  | some v => stringifyV v

/-- Model of `SimplifiedUtcpAgent.executeTool`: run the tool; on an error
mentioning a missing parameter, push corrective feedback onto the history
and return a recoverable error record; on an error mentioning variables,
look up the tool's required variables and return an error record naming
them (nothing is pushed onto the history); otherwise return the error
record unchanged. -/
def executeTool (env : Env) (it : Nat) (toolName : Option Json) (args : Json)
    (msgs : List Message) : ExecResult × List Message :=
  match env.callTool it toolName args with
  | .ok v => (.ok v, msgs)
  | .error errMsg =>
    if substrB "Missing required" errMsg || substrB "parameter" errMsg then
      (.err errMsg true,
       msgs ++ [⟨Role.human, "Error: The tool call failed because a required parameter was missing: \"" ++ extractParam errMsg ++ "\". Please retry the tool call with this parameter included. Current arguments were: " ++ stringifyV args⟩])
    else if substrB "variable" errMsg then
      match env.requiredVars it toolName with
      | .ok vars =>
        (.err ("Tool " ++ jsDisplay toolName ++ " requires the following variables to be set: " ++ ", ".intercalate vars ++ ".") false, msgs)
      | .error _ => (.err errMsg false, msgs)
    else (.err errMsg false, msgs)

/-- Check the stream loop applies to an execution result
(`result && typeof result === "object" && "error" in result`): error
records carry an `error` key; a successful object result that happens to
own an `error` key is also treated as a failure. -/
def isErrorResult : ExecResult → Bool
  | .err _ _ => true
  | .ok (Json.obj fields) => fields.any (fun p => p.1 == "error")
  | .ok _ => false

/-- Strict-equality comparison of the decision's action field with a given
string, as the stream loop performs it. -/
def ParsedDecision.isAction (d : ParsedDecision) (s : String) : Bool :=
  match d.action with
  | some (Json.str a) => a == s
  | _ => false

/-- Arguments the stream loop passes to execution
(`decision.arguments || empty-object`). -/
def ParsedDecision.argsOrEmpty (d : ParsedDecision) : Json :=
  match d.arguments with
  | some a => if a.truthy then a else Json.obj []
  | none => Json.obj []

/-- First 100 characters of a string (`substring(0, 100)`). -/
def strTake (s : String) (n : Nat) : String :=
  String.mk (s.toList.take n)

/-- Messages the stream loop pushes after a successful tool execution: the
call description, then the result (special-cased when empty, truncated when
its token estimate exceeds the threshold). -/
def successMessages (cfg : AgentConfig) (dec : ParsedDecision) (v : Json) : List Message :=
  let callMsg : Message :=
    ⟨Role.ai, "Tool called: " ++ jsDisplay dec.toolName ++ " with arguments: " ++ stringifyOpt dec.arguments⟩
  let resultStr := match v with | Json.str s => s | _ => stringifyV v
  if trimStr resultStr == "" then
    [callMsg, ⟨Role.human, "Result is empty. Try different arguments or a different tool."⟩]
  else if cfg.summarizeThreshold < estimateTokenCount [⟨Role.human, resultStr⟩] then
    [callMsg, ⟨Role.human, "Result is too long to display. Try different arguments or a different tool. This is the beginning of the result: " ++ strTake resultStr 100 ++ "..."⟩]
  else
    [callMsg, ⟨Role.human, "Tool result: " ++ resultStr⟩]

/-- Final response text (`generateResponse`): the model's answer, or an
error-describing message when the invocation fails. -/
def respondText (env : Env) (it : Nat) : String :=
  match env.respondLLM it with
  | .ok s => s
  | .error e => "I encountered an error generating the response: " ++ e

/-- Step events yielded by the stream loop, tagged with the value of the
iteration counter when the phase ran. -/
inductive Step where
  | analyze (iteration : Nat) (task : String)
  | search (iteration : Nat) (toolCount : Nat)
  | decide (iteration : Nat) (decision : ParsedDecision)
  | execute (iteration : Nat) (result : ExecResult)
  | respond (iteration : Nat) (text : String)
deriving Repr

/-- One iteration of the stream loop body, entered with the
already-incremented iteration counter: analyze, search, decide, then either
generate the final response (stopping), execute the chosen tool
(continuing), or stop silently on an unrecognized action.  Returns the
yielded steps, the stored history after the iteration, and whether the loop
continues. -/
def runIteration (cfg : AgentConfig) (env : Env) (it : Nat) (msgs : List Message) :
    List Step × List Message × Bool :=
  let a := analyzeTask cfg env it msgs
  let tools := env.searchTools it a.task
  let d := decideAction cfg env it a.task tools msgs
  if d.decision.isAction "respond" then
    ([.analyze it a.task, .search it tools.length, .decide it d.decision,
      .respond it (respondText env it)], d.msgs, false)
  else if d.decision.isAction "call_tool" then
    let ex := executeTool env it d.decision.toolName d.decision.argsOrEmpty d.msgs
    let msgs3 := match ex.1 with
      | .err _ _ => ex.2
      | .ok v => if isErrorResult (.ok v) then ex.2 else ex.2 ++ successMessages cfg d.decision v
    ([.analyze it a.task, .search it tools.length, .decide it d.decision,
      .execute it ex.1], msgs3, true)
  else
    ([.analyze it a.task, .search it tools.length, .decide it d.decision], d.msgs, false)

/-- The while loop of `stream`: the iteration counter starts at zero, the
loop runs while it is below the configured maximum and no iteration has
chosen to stop, and the counter is incremented at the top of the body.  The
fuel argument only bounds the recursion; `stream` supplies the maximum,
which the guard makes sufficient. -/
def agentLoop (cfg : AgentConfig) (env : Env) : Nat → Nat → List Message → List Step
  | 0, _, _ => []
  | fuel + 1, it, msgs =>
    if it < cfg.maxIterations then
      let r := runIteration cfg env (it + 1) msgs
      r.1 ++ (if r.2.2 then agentLoop cfg env fuel (it + 1) r.2.1 else [])
    else []

/-- Model of `SimplifiedUtcpAgent.stream`: reinstall the system message in
front of the previous non-system history, append the user input, and run
the loop from iteration zero. -/
def stream (cfg : AgentConfig) (env : Env) (prior : List Message) (userInput : String) : List Step :=
  let msgs := ⟨Role.system, cfg.systemPrompt⟩ ::
    (prior.filter (fun m => !(m.role == Role.system))) ++ [(⟨Role.human, userInput⟩ : Message)]
  agentLoop cfg env cfg.maxIterations 0 msgs

/-- Iteration-counter values observed at the decide steps of a trace, in
order. -/
def decideIters (steps : List Step) : List Nat :=
  steps.filterMap (fun s => match s with | .decide i _ => some i | _ => none)

/-- Number of decide-phase invocations recorded in a trace. -/
def decideCount (steps : List Step) : Nat :=
  (decideIters steps).length

/-- Whether a step is an execute event. -/
def isExecuteStep : Step → Bool
  | .execute _ _ => true
  | _ => false

/-!
The LangGraph agent (`UtcpAgent`, part of the same repository), modelled
where the claims refer to it: its decision extraction uses two regular
expressions (a json fence, else a greedy first-brace-to-last-brace span),
performs no tool-name normalization and no validation, and its
`executeTools` node guards against an absent tool name itself.
-/

/-- First regular expression of `UtcpAgent.decideAction`: a json fence
whose interior sits between a newline after the opening fence and a newline
before the closing one. -/
def utcpFence (s : String) : Option String :=
  let cs := s.toList
  match findSubAux ("```json\n".toList) cs 0 with
  | none => none
  | some i =>
    let afterOpen := cs.drop (i + 8)
    match findSubAux ("\n```".toList) afterOpen 0 with
    | none => none
    | some k => some (String.mk (afterOpen.take k))

/-- Second regular expression of `UtcpAgent.decideAction`: the greedy span
from the first opening brace to the last closing brace after it. -/
def utcpBrace (s : String) : Option String :=
  match fromFirstBrace s.toList with
  | none => none
  | some suffix =>
    let dropped := suffix.reverse.dropWhile (fun c => !(c == '\x7d'))
    if dropped.isEmpty then none else some (String.mk dropped.reverse)

/-- Combined extraction of `UtcpAgent.decideAction`. -/
def utcpExtract (s : String) : Option String :=
  match utcpFence s with
  | some r => some r
  | none => utcpBrace s

/-- Catch branch of `UtcpAgent.decideAction`: route to respond with the
raw decision text as message. -/
def utcpRespondOnErr (decisionText : String) : Json × Option ParsedDecision :=
  (Json.str "respond", some (respondMsg decisionText))

/-- Model of the parse portion of `UtcpAgent.decideAction`: extract a span
(failing extraction, parsing, or reading a field of `null` is caught and
routes to respond carrying the raw text); otherwise the parsed object is
used as the decision data unchanged — no end-to-respond rewrite, no
`tool_name` normalization, no argument validation — and the next action is
its `action` field, defaulted to "respond" when falsy.  The returned pair
is (nextAction as read by `routeDecision`, decisionData). -/
def utcpDecideParse (decisionText : String) : Json × Option ParsedDecision :=
  match utcpExtract decisionText with
  | none => utcpRespondOnErr decisionText
  | some js =>
    match jsonParse js with
    | none => utcpRespondOnErr decisionText
    | some v =>
      if isNullJson v then utcpRespondOnErr decisionText
      else
        let action := match getField v "action" with
          | some a => if a.truthy then a else Json.str "respond"
          | none => Json.str "respond"
        (action, some ⟨getField v "action", getField v "toolName", getField v "arguments", getField v "message"⟩)

/-- Model of `UtcpAgent.routeDecision` (`state.nextAction || "respond"`):
the graph routes a "call_tool" next action to the execute node. -/
def utcpRoute (nextAction : Json) : Json :=
  if nextAction.truthy then nextAction else Json.str "respond"

/-- Model of `UtcpAgent.executeTools`: guard against an absent (falsy) tool
name by appending an error message and routing to respond; otherwise run
the tool, mapping a variable error to a message naming the required
variables, any other error to a generic message, and a success to the
call/result message pair (with the empty and oversized result special
cases) and a route back to the analyze node.  Returns the updated message
list and the next action. -/
def utcpExecuteTools (cfg : AgentConfig) (env : Env) (it : Nat)
    (dec : Option ParsedDecision) (msgs : List Message) : List Message × String :=
  let toolName := match dec with | some d => d.toolName | none => none
  let args := match dec with | some d => d.argsOrEmpty | none => Json.obj []
  if !(truthyOpt toolName) then
    (msgs ++ [⟨Role.ai, "Error: No tool specified"⟩], "respond")
  else
    match env.callTool it toolName args with
    | .error em =>
      if substrB "variable" em then
        match env.requiredVars it toolName with
        | .ok vars =>
          (msgs ++ [⟨Role.ai, "Tool " ++ jsDisplay toolName ++ " requires the following variables to be set: " ++ ", ".intercalate vars ++ "."⟩], "respond")
        | .error e2 =>
          (msgs ++ [⟨Role.ai, "Error executing tool " ++ jsDisplay toolName ++ ": " ++ e2⟩], "respond")
      else
        (msgs ++ [⟨Role.ai, "Error executing tool " ++ jsDisplay toolName ++ ": " ++ em⟩], "respond")
    | .ok v =>
      let resultStr := match v with | Json.str s => s | _ => stringifyV v
      let toolCallMsg : Message :=
        ⟨Role.ai, "Tool called: " ++ jsDisplay toolName ++ " with arguments: " ++ stringifyV args⟩
      let toolResultMsg : Message :=
        if trimStr resultStr == "" then
          ⟨Role.human, "Result is empty. Try different arguments or a different tool."⟩
        else if cfg.summarizeThreshold < estimateTokenCount [⟨Role.human, "Tool result: " ++ resultStr⟩] then
          ⟨Role.human, "Result is too long to display. Try different arguments or a different tool. This is the beginning of the result: " ++ strTake resultStr 100 ++ "..."⟩
        else ⟨Role.human, "Tool result: " ++ resultStr⟩
      (msgs ++ [toolCallMsg, toolResultMsg], "analyze_task")

/-- The LangGraph workflow state (`AgentStateAnnotation`): the next action
is held as a JSON value because `decideAction` stores the parsed object\u0027s
raw `action` field in it. -/
structure UtcpState where
  messages : List Message
  currentTask : String
  availableTools : List Tool
  nextAction : Json
  decisionData : Option ParsedDecision
  iterationCount : Nat
  finalResponse : Option String

/-- Model of the `analyze_task` node: on a model success, store the trimmed
task, append the probe and answer to the history and set the next action to
search; on a thrown model error, store "Unknown task" and set the next
action to respond (the graph\u0027s edge out of this node is unconditional to
`search_tools` either way). -/
def utcpAnalyzeNode (env : Env) (st : UtcpState) : UtcpState :=
  match env.analyzeLLM st.iterationCount with
  | .ok s =>
    { st with currentTask := trimStr s,
              nextAction := Json.str "search_tools",
              messages := st.messages ++
                [⟨Role.human, "The next step is:\n"⟩, ⟨Role.ai, trimStr s⟩] }
  | .error _ =>
    { st with currentTask := "Unknown task", nextAction := Json.str "respond" }

/-- Model of the `search_tools` node: store the search result and set the
next action to decide. -/
def utcpSearchNode (env : Env) (st : UtcpState) : UtcpState :=
  { st with availableTools := env.searchTools st.iterationCount st.currentTask,
            nextAction := Json.str "decide_action" }

/-- Model of `UtcpAgent.decideAction`: the ceiling check `iterationCount >=
maxIterations` comes FIRST and its forced-respond branch does not touch the
counter; only the below-ceiling branches increment it (so the node can
execute once more after the counter reaches the ceiling).  A thrown model
error becomes a respond decision carrying the rendered error; otherwise the
trimmed response goes through the parse portion `utcpDecideParse`. -/
def utcpDecideNode (cfg : AgentConfig) (env : Env) (st : UtcpState) : UtcpState :=
  if cfg.maxIterations ≤ st.iterationCount then
    { st with nextAction := Json.str "respond", decisionData := some forcedDecision }
  else
    match env.decideLLM st.iterationCount with
    | .error e =>
      { st with nextAction := Json.str "respond",
                decisionData := some (respondMsg ("I encountered an error: " ++ e)),
                iterationCount := st.iterationCount + 1 }
    | .ok resp =>
      { st with nextAction := (utcpDecideParse (trimStr resp)).1,
                decisionData := (utcpDecideParse (trimStr resp)).2,
                iterationCount := st.iterationCount + 1 }

/-- Model of the `execute_tools` node, via `utcpExecuteTools`; the graph\u0027s
edge out of this node is unconditional to `analyze_task`, whatever next
action the node stores. -/
def utcpExecuteNode (cfg : AgentConfig) (env : Env) (st : UtcpState) : UtcpState :=
  { st with
      messages :=
        (utcpExecuteTools cfg env st.iterationCount st.decisionData st.messages).1,
      nextAction :=
        Json.str (utcpExecuteTools cfg env st.iterationCount st.decisionData st.messages).2 }

/-- Model of the `respond` node: append the trimmed model answer (or the
rendered error text on a thrown model error) and store it as the final
response. -/
def utcpRespondNode (env : Env) (st : UtcpState) : UtcpState :=
  match env.respondLLM st.iterationCount with
  | .ok s =>
    { st with messages := st.messages ++ [⟨Role.ai, trimStr s⟩],
              finalResponse := some (trimStr s) }
  | .error e =>
    { st with
        messages := st.messages ++
          [⟨Role.ai, "I encountered an error generating the response: " ++ e⟩],
        finalResponse := some ("I encountered an error generating the response: " ++ e) }

/-- The nodes of the compiled graph, plus the END marker. -/
inductive UNode where
  | analyze
  | search
  | decide
  | execute
  | respond
  | done

/-- One run of the compiled graph.  Fixed edges: START to analyze, analyze
to search, search to decide, execute to analyze, respond to END.  After the
decide node `routeDecision` picks the next node through the map
call_tool/respond/end; `end` maps to END, and a routing value outside the
map is a LangGraph routing error that likewise ends the run (caught by
`chat`).  The fuel models the recursion limit LangGraph imposes on node
executions (default configuration: 25); the first returned component counts
the executions of the decide node. -/
def utcpRunAux (cfg : AgentConfig) (env : Env) :
    Nat → UNode → UtcpState → Nat → Nat × UtcpState
  | 0, _, st, dc => (dc, st)
  | fuel + 1, n, st, dc =>
    match n with
    | .done => (dc, st)
    | .analyze => utcpRunAux cfg env fuel .search (utcpAnalyzeNode env st) dc
    | .search => utcpRunAux cfg env fuel .decide (utcpSearchNode env st) dc
    | .execute => utcpRunAux cfg env fuel .analyze (utcpExecuteNode cfg env st) dc
    | .respond => utcpRunAux cfg env fuel .done (utcpRespondNode env st) dc
    | .decide =>
      utcpRunAux cfg env fuel
        (if utcpRoute (utcpDecideNode cfg env st).nextAction == Json.str "call_tool" then
          UNode.execute
         else if utcpRoute (utcpDecideNode cfg env st).nextAction == Json.str "respond" then
          UNode.respond
         else UNode.done)
        (utcpDecideNode cfg env st) (dc + 1)

/-- Model of `UtcpAgent.chat`: run the graph from the initial state built
on the user input, under the configured recursion limit. -/
def utcpChat (cfg : AgentConfig) (env : Env) (recursionLimit : Nat)
    (userInput : String) : Nat × UtcpState :=
  utcpRunAux cfg env recursionLimit .analyze
    ⟨[⟨Role.human, userInput⟩], "", [], Json.str "analyze_task", none, 0, none⟩ 0

/-- Decide-node executions still possible from a given node of the graph:
none from the respond node or END, and otherwise one per remaining
iteration below the ceiling plus the one forced execution at the ceiling. -/
def utcpBudget (cfg : AgentConfig) : UNode → UtcpState → Nat
  | .analyze, st => (cfg.maxIterations - st.iterationCount) + 1
  | .search, st => (cfg.maxIterations - st.iterationCount) + 1
  | .decide, st => (cfg.maxIterations - st.iterationCount) + 1
  | .execute, st => (cfg.maxIterations - st.iterationCount) + 1
  | .respond, _ => 0
  | .done, _ => 0

/-!
Helper lemmas.
-/

theorem getField_some_obj {v : Json} {k : String} {x : Json}
    (h : getField v k = some x) : ∃ fs, v = Json.obj fs := by
  cases v
  case obj fs => exact ⟨fs, rfl⟩
  all_goals simp [getField] at h

theorem decideIters_append (a b : List Step) :
    decideIters (a ++ b) = decideIters a ++ decideIters b :=
  List.filterMap_append a b _

theorem runIteration_decideIters (cfg : AgentConfig) (env : Env) (it : Nat) (msgs : List Message) :
    decideIters (runIteration cfg env it msgs).1 = [it] := by
  simp only [runIteration]
  split
  · rfl
  · split
    · rfl
    · rfl

theorem agentLoop_decide_spec (cfg : AgentConfig) (env : Env) :
    ∀ (fuel it : Nat) (msgs : List Message),
      ∃ k, decideIters (agentLoop cfg env fuel it msgs) = List.range' (it + 1) k ∧
        k ≤ cfg.maxIterations - it := by
  intro fuel
  induction fuel with
  | zero => intro it msgs; exact ⟨0, rfl, Nat.zero_le _⟩
  | succ f ih =>
    intro it msgs
    simp only [agentLoop]
    split
    · rename_i hlt
      by_cases hc : (runIteration cfg env (it + 1) msgs).2.2
      · obtain ⟨k, hk1, hk2⟩ := ih (it + 1) (runIteration cfg env (it + 1) msgs).2.1
        refine ⟨k + 1, ?_, by omega⟩
        rw [decideIters_append, runIteration_decideIters, if_pos hc, hk1, List.range'_succ]
        simp
      · refine ⟨1, ?_, by omega⟩
        rw [decideIters_append, runIteration_decideIters, if_neg hc]
        rfl
    · exact ⟨0, rfl, Nat.zero_le _⟩

theorem scanSpan_append (ys : List Char) :
    ∀ (xs : List Char) (d : Nat) (istr esc : Bool) (pre : List Char),
      scanSpan xs d istr esc = some pre →
      scanSpan (xs ++ ys) d istr esc = some pre := by
  intro xs
  induction xs with
  | nil => intro d istr esc pre h; exact absurd h (by simp [scanSpan])
  | cons c cs ih =>
    intro d istr esc pre h
    simp only [scanSpan, List.cons_append, List.append_eq] at h ⊢
    split_ifs at h ⊢ <;>
      first
      | exact h
      | (obtain ⟨pre', hp', rfl⟩ := Option.map_eq_some'.mp h
         rw [ih _ _ _ _ hp']
         rfl)

theorem scanSpan_ends_close :
    ∀ (xs : List Char) (d : Nat) (istr esc : Bool) (pre : List Char),
      scanSpan xs d istr esc = some pre → ∃ pr, pre = pr ++ ['\x7d'] := by
  intro xs
  induction xs with
  | nil => intro d istr esc pre h; exact absurd h (by simp [scanSpan])
  | cons c cs ih =>
    intro d istr esc pre h
    simp only [scanSpan] at h
    split_ifs at h with h1 h2 h3 h4 h5 h6 <;>
      first
      | (obtain ⟨pre2, hp2, rfl⟩ := Option.map_eq_some'.mp h
         obtain ⟨pr, rfl⟩ := ih _ _ _ _ hp2
         exact ⟨c :: pr, rfl⟩)
      | (cases h
         rw [Bool.and_eq_true] at h5
         exact ⟨[], by rw [eq_of_beq h5.2]; rfl⟩)

theorem dropWhile_append_all {q : Char → Bool} :
    ∀ (l1 l2 : List Char), (∀ c ∈ l1, q c = true) →
      (l1 ++ l2).dropWhile q = l2.dropWhile q := by
  intro l1
  induction l1 with
  | nil => intro l2 h; rfl
  | cons c cs ih =>
    intro l2 h
    have hc : q c = true := h c (by simp)
    simp only [List.cons_append, List.dropWhile_cons, hc, if_true]
    exact ih l2 (fun x hx => h x (by simp [hx]))

theorem fromFirstBrace_append (p tail : List Char) (hp : '\x7b' ∉ p) :
    fromFirstBrace (p ++ '\x7b' :: tail) = some ('\x7b' :: tail) := by
  induction p with
  | nil => simp [fromFirstBrace]
  | cons c p' ih =>
    rw [List.mem_cons, not_or] at hp
    simp only [List.cons_append, fromFirstBrace, List.append_eq]
    rw [if_neg, ih hp.2]
    simp only [beq_iff_eq]
    exact fun h => hp.1 h.symm

theorem jsonParse_ne_empty {js : String} {v : Json} (hp : jsonParse js = some v) :
    (js == "") = false := by
  cases h : js == "" with
  | false => rfl
  | true =>
    exfalso
    rw [eq_of_beq h] at hp
    exact Option.noConfusion hp

theorem decideParsePhase_of_parse {resp js : String} {v : Json} (tools : List Tool)
    (msgs : List Message)
    (hex : extractJsonStr resp = some js) (hp : jsonParse js = some v) :
    decideParsePhase resp tools msgs = handleParsedJson js resp tools msgs := by
  have hne := jsonParse_ne_empty hp
  simp [decideParsePhase, hex, hne]

theorem utcpAnalyzeNode_count (env : Env) (st : UtcpState) :
    (utcpAnalyzeNode env st).iterationCount = st.iterationCount := by
  cases h : env.analyzeLLM st.iterationCount <;> simp [utcpAnalyzeNode, h]

theorem utcpSearchNode_count (env : Env) (st : UtcpState) :
    (utcpSearchNode env st).iterationCount = st.iterationCount := rfl

theorem utcpExecuteNode_count (cfg : AgentConfig) (env : Env) (st : UtcpState) :
    (utcpExecuteNode cfg env st).iterationCount = st.iterationCount := rfl

theorem utcpDecideNode_ceiling (cfg : AgentConfig) (env : Env) (st : UtcpState)
    (h : cfg.maxIterations ≤ st.iterationCount) :
    utcpDecideNode cfg env st =
      { st with nextAction := Json.str "respond", decisionData := some forcedDecision } := by
  simp [utcpDecideNode, h]

theorem utcpDecideNode_below (cfg : AgentConfig) (env : Env) (st : UtcpState)
    (h : ¬ cfg.maxIterations ≤ st.iterationCount) :
    (utcpDecideNode cfg env st).iterationCount = st.iterationCount + 1 := by
  simp only [utcpDecideNode]
  rw [if_neg h]
  cases hd : env.decideLLM st.iterationCount <;> simp

theorem utcpRunAux_decide_bound (cfg : AgentConfig) (env : Env) :
    ∀ (fuel : Nat) (n : UNode) (st : UtcpState) (dc : Nat),
      (utcpRunAux cfg env fuel n st dc).1 ≤ dc + utcpBudget cfg n st := by
  intro fuel
  induction fuel with
  | zero => intro n st dc; simp [utcpRunAux]
  | succ f ih =>
    intro n st dc
    cases n with
    | done => simp [utcpRunAux]
    | analyze =>
      have h := ih .search (utcpAnalyzeNode env st) dc
      simp only [utcpRunAux, utcpBudget, utcpAnalyzeNode_count] at h ⊢
      exact h
    | search =>
      have h := ih .decide (utcpSearchNode env st) dc
      simp only [utcpRunAux, utcpBudget, utcpSearchNode_count] at h ⊢
      exact h
    | execute =>
      have h := ih .analyze (utcpExecuteNode cfg env st) dc
      simp only [utcpRunAux, utcpBudget, utcpExecuteNode_count] at h ⊢
      exact h
    | respond =>
      have h := ih .done (utcpRespondNode env st) dc
      simp only [utcpRunAux, utcpBudget] at h ⊢
      exact h
    | decide =>
      by_cases hc : cfg.maxIterations ≤ st.iterationCount
      · have hd := utcpDecideNode_ceiling cfg env st hc
        have h := ih .respond (utcpDecideNode cfg env st) (dc + 1)
        simp only [utcpRunAux, hd,
          (show (utcpRoute (Json.str "respond") == Json.str "call_tool") = false from rfl),
          (show (utcpRoute (Json.str "respond") == Json.str "respond") = true from rfl),
          Bool.false_eq_true, if_false, if_true, utcpBudget] at h ⊢
        omega
      · have hcount := utcpDecideNode_below cfg env st hc
        simp only [utcpRunAux]
        split
        · have h := ih .execute (utcpDecideNode cfg env st) (dc + 1)
          simp only [utcpBudget, hcount] at h ⊢
          omega
        · split
          · have h := ih .respond (utcpDecideNode cfg env st) (dc + 1)
            simp only [utcpBudget] at h ⊢
            omega
          · have h := ih .done (utcpDecideNode cfg env st) (dc + 1)
            simp only [utcpBudget] at h ⊢
            omega

theorem utcpChat_decide_bound (cfg : AgentConfig) (env : Env) (recursionLimit : Nat)
    (userInput : String) :
    (utcpChat cfg env recursionLimit userInput).1 ≤ cfg.maxIterations + 1 := by
  have h := utcpRunAux_decide_bound cfg env recursionLimit .analyze
    ⟨[⟨Role.human, userInput⟩], "", [], Json.str "analyze_task", none, 0, none⟩ 0
  simpa [utcpChat, utcpBudget] using h

theorem decideParsePhase_msgs (response : String) (tools : List Tool) (msgs : List Message) :
    ∃ tail, (decideParsePhase response tools msgs).2 = msgs ++ tail := by
  simp only [decideParsePhase, handleParsedJson]
  repeat' split
  all_goals
    first
    | exact ⟨[validationCorrective _ _], rfl⟩
    | (refine ⟨[], ?_⟩; simp)

theorem length_sys_partition (msgs : List Message) :
    (msgs.filter (fun m => m.role == Role.system)).length +
      (msgs.filter (fun m => !(m.role == Role.system))).length = msgs.length := by
  induction msgs with
  | nil => rfl
  | cons a l ih =>
    by_cases h : (a.role == Role.system) = true <;>
      simp [List.filter_cons, h] <;> omega

/-!
Claim theorems.
-/

/-- C1 (amended): in one `SimplifiedUtcpAgent.stream` run the decide phase
is invoked at most `maxIterations` times; the iteration counter starts at
zero and the counter values observed at the decide steps are the
consecutive integers from 1 — monotonically non-decreasing; and once the
counter has reached `maxIterations`, `decideAction` returns the forced
respond decision with its explanatory message without consulting the model
(the result is a constant, independent of every oracle in `env`).  In one
`UtcpAgent.chat` run, by contrast, the ceiling check precedes the increment
inside the decide node, so the decide node executes at most
`maxIterations + 1` times — one more than the claimed bound — and at the
ceiling it is the node\u0027s forced-respond branch that runs, consulting no
model and leaving the counter unchanged. -/
theorem stream_iteration_bound (cfg : AgentConfig) (env : Env) (prior : List Message)
    (userInput : String) (it : Nat) (task : String) (tools : List Tool) (msgs : List Message)
    (recursionLimit : Nat) (userInput2 : String) (st : UtcpState)
    (h : cfg.maxIterations ≤ it)
    (h2 : cfg.maxIterations ≤ st.iterationCount) :
    decideCount (stream cfg env prior userInput) ≤ cfg.maxIterations ∧
    decideIters (stream cfg env prior userInput) =
      List.range' 1 (decideCount (stream cfg env prior userInput)) ∧
    decideAction cfg env it task tools msgs = ⟨forcedDecision, msgs, []⟩ ∧
    (utcpChat cfg env recursionLimit userInput2).1 ≤ cfg.maxIterations + 1 ∧
    utcpDecideNode cfg env st =
      { st with nextAction := Json.str "respond", decisionData := some forcedDecision } := by
  have hs : stream cfg env prior userInput =
      agentLoop cfg env cfg.maxIterations 0
        (⟨Role.system, cfg.systemPrompt⟩ ::
          (prior.filter (fun m => !(m.role == Role.system))) ++
          [(⟨Role.human, userInput⟩ : Message)]) := rfl
  obtain ⟨k, hk1, hk2⟩ := agentLoop_decide_spec cfg env cfg.maxIterations 0
    (⟨Role.system, cfg.systemPrompt⟩ ::
      (prior.filter (fun m => !(m.role == Role.system))) ++
      [(⟨Role.human, userInput⟩ : Message)])
  refine ⟨?_, ?_, ?_, utcpChat_decide_bound cfg env recursionLimit userInput2,
    utcpDecideNode_ceiling cfg env st h2⟩
  · simp only [decideCount, hs, hk1, List.length_range']
    omega
  · simp only [decideCount, hs, hk1, List.length_range']
  · simp [decideAction, h]

/-- Configuration with the constructor defaults of the source. -/
def c1cfg : AgentConfig := ⟨3, 10, "You are a helpful AI assistant.", 80000⟩

/-- Environment where the model always proposes the same valid tool call,
so the loop runs to the iteration ceiling. -/
def c1env : Env :=
  ⟨fun _ => .ok "find data",
   fun _ _ => [⟨"t", "tool t", none⟩],
   fun _ => .ok "\x7b\"action\":\"call_tool\",\"tool_name\":\"t\",\"arguments\":\x7b\x7d\x7d",
   fun _ => .ok "summary",
   fun _ _ _ => .ok (Json.str "data"),
   fun _ _ => .ok [],
   fun _ => .ok "final answer"⟩

theorem stream_iteration_bound_witness :
    decideCount (stream c1cfg c1env [] "hi") ≤ c1cfg.maxIterations ∧
    decideIters (stream c1cfg c1env [] "hi") =
      List.range' 1 (decideCount (stream c1cfg c1env [] "hi")) ∧
    decideAction c1cfg c1env 3 "task" [] [] = ⟨forcedDecision, [], []⟩ ∧
    (utcpChat c1cfg c1env 25 "hi").1 ≤ c1cfg.maxIterations + 1 ∧
    utcpDecideNode c1cfg c1env ⟨[], "", [], Json.str "decide_action", none, 3, none⟩ =
      { (⟨[], "", [], Json.str "decide_action", none, 3, none⟩ : UtcpState) with
        nextAction := Json.str "respond", decisionData := some forcedDecision } :=
  stream_iteration_bound c1cfg c1env [] "hi" 3 "task" [] [] 25 "hi"
    ⟨[], "", [], Json.str "decide_action", none, 3, none⟩ (by decide) (by decide)

/-- Environment whose model always proposes the same tool call, keyed
`toolName` as the LangGraph agent reads it (that agent performs no
normalization), so the graph loops through the execute node until the
iteration ceiling. -/
def c1uenv : Env :=
  ⟨fun _ => .ok "find data",
   fun _ _ => [⟨"t", "tool t", none⟩],
   fun _ => .ok "\x7b\"action\":\"call_tool\",\"toolName\":\"t\",\"arguments\":\x7b\x7d\x7d",
   fun _ => .ok "summary",
   fun _ _ _ => .ok (Json.str "data"),
   fun _ _ => .ok [],
   fun _ => .ok "final answer"⟩

/-- C1 counterexample for the claimed at-most-`maxIterations` bound on the
LangGraph agent cited by the claim: with the default configuration
(maxIterations 3, recursion limit 25) and a model that always proposes a
tool call, one `UtcpAgent.chat` run executes the decide node 4 times — the
ceiling check precedes the increment inside the node, so a fourth execution
happens at counter value 3 before the forced respond. -/
theorem utcp_decide_count_counterexample :
    c1cfg.maxIterations = 3 ∧ (utcpChat c1cfg c1uenv 25 "hi").1 = 4 :=
  ⟨rfl, rfl⟩

/-- C2 counterexample: the raw model output "hello there" has no fenced
block and no brace, so no JSON span is extracted; the parser then returns
the plain respond decision with NO message field — not a respond decision
whose message equals the raw text, as the claim states. -/
theorem parser_no_span_message_counterexample :
    extractJsonStr "hello there" = none ∧
    (decideParsePhase "hello there" [] []).1 = respondPlain ∧
    ¬ (decideParsePhase "hello there" [] []).1.message = some (Json.str "hello there") := by
  refine ⟨rfl, rfl, ?_⟩
  intro hcontra
  exact Option.noConfusion hcontra

/-- C2 (amended): the decision parser never raises: when no JSON span can
be extracted, and likewise when the extracted span is the empty string (a
fenced block with whitespace-only interior, caught by the source\u0027s falsy
check), it returns a respond decision carrying no message; and when a
nonempty extracted span fails JSON parsing it returns a respond decision
whose message equals the raw input text. -/
theorem parser_degrades_to_respond (s js : String) :
    (extractJsonStr s = none →
      ∀ tools msgs, decideParsePhase s tools msgs = (respondPlain, msgs)) ∧
    (extractJsonStr s = some "" →
      ∀ tools msgs, decideParsePhase s tools msgs = (respondPlain, msgs)) ∧
    (extractJsonStr s = some js → (js == "") = false → jsonParse js = none →
      ∀ tools msgs, decideParsePhase s tools msgs = (respondMsg s, msgs)) := by
  refine ⟨?_, ?_, ?_⟩
  · intro h tools msgs
    simp [decideParsePhase, h]
  · intro h tools msgs
    simp [decideParsePhase, h]
  · intro h1 h2 h3 tools msgs
    simp [decideParsePhase, h1, h2, handleParsedJson, h3]

theorem parser_degrades_to_respond_witness :
    decideParsePhase "hello world" [] [] = (respondPlain, []) ∧
    decideParsePhase "```json ```" [] [] = (respondPlain, []) ∧
    decideParsePhase "\x7boops\x7d" [] [] = (respondMsg "\x7boops\x7d", []) :=
  ⟨(parser_degrades_to_respond "hello world" "x").1 rfl [] [],
   (parser_degrades_to_respond "```json ```" "x").2.1 rfl [] [],
   (parser_degrades_to_respond "\x7boops\x7d" "\x7boops\x7d").2.2 rfl rfl rfl [] []⟩

/-- C5 (amended): the argument validator fails closed when no descriptor
matches the proposed tool name; when the matched descriptor declares an
array input schema whose readable required names are `req`, it reports as
missing exactly the declared required names on which the JavaScript `in`
test against the supplied argument mapping fails — that test accepts the
mapping\u0027s own keys but also the property names the object inherits from
Object.prototype, so a required name such as "toString" is never reported
missing (and the call passes when no name fails the test); a descriptor
that carries no input schema validates vacuously. -/
theorem validateToolArguments_spec (n : String) (m : List (String × Json))
    (tools : List Tool) (t : Tool) (items : List Json) (req : List String) :
    ((∀ u ∈ tools, u.name ≠ n) →
      validateToolArguments (some (Json.str n)) (Json.obj m) tools =
        .invalid ("Tool " ++ n ++ " not found")) ∧
    (tools.find? (fun u => nameMatches (some (Json.str n)) u.name) = some t →
      (t.inputs = some (Json.arr items) → requiredNames items = some req →
        validateToolArguments (some (Json.str n)) (Json.obj m) tools =
          (if (req.filter (fun q => !(hasKey (Json.obj m) q))).isEmpty then .valid
           else .invalid ("Missing required parameters: " ++
             ", ".intercalate (req.filter (fun q => !(hasKey (Json.obj m) q)))))) ∧
      (t.inputs = none →
        validateToolArguments (some (Json.str n)) (Json.obj m) tools = .valid)) := by
  refine ⟨?_, fun hfind => ⟨?_, ?_⟩⟩
  · intro h
    have hfind : tools.find? (fun u => nameMatches (some (Json.str n)) u.name) = none := by
      rw [List.find?_eq_none]
      intro u hu
      simp only [nameMatches, beq_iff_eq]
      exact fun hh => (h u hu) hh.symm
    simp [validateToolArguments, hfind, jsDisplay, jsDisplayV]
  · intro hin hreq
    simp [validateToolArguments, hfind, hin, hreq, truthyOpt, Json.truthy, isObjLike]
  · intro hnone
    simp [validateToolArguments, hfind, hnone, truthyOpt]

/-- Descriptor declaring one required parameter "q". -/
def c5tool : Tool :=
  ⟨"X", "search", some (Json.arr [Json.obj [("name", Json.str "q"), ("required", Json.bool true)]])⟩

/-- Descriptor carrying no input schema. -/
def c5toolFree : Tool := ⟨"Y", "no schema", none⟩

theorem validateToolArguments_spec_witness :
    validateToolArguments (some (Json.str "Z")) (Json.obj []) [c5tool] =
      .invalid "Tool Z not found" ∧
    validateToolArguments (some (Json.str "X")) (Json.obj []) [c5tool] =
      .invalid "Missing required parameters: q" ∧
    validateToolArguments (some (Json.str "Y")) (Json.obj []) [c5toolFree] = .valid := by
  refine ⟨?_, ?_, ?_⟩
  · exact (validateToolArguments_spec "Z" [] [c5tool] c5tool [] []).1 (by decide)
  · have h := ((validateToolArguments_spec "X" [] [c5tool] c5tool
      [Json.obj [("name", Json.str "q"), ("required", Json.bool true)]] ["q"]).2 rfl).1 rfl rfl
    rw [h]
    rfl
  · exact ((validateToolArguments_spec "Y" [] [c5toolFree] c5toolFree [] []).2 rfl).2 rfl

/-- Descriptor requiring the parameter name "toString", which every plain
JavaScript object inherits from Object.prototype. -/
def c5protoTool : Tool :=
  ⟨"W", "weird", some (Json.arr
    [Json.obj [("name", Json.str "toString"), ("required", Json.bool true)]])⟩

/-- C5 counterexample to the claim\u0027s own-keys reading: a call to a tool
requiring "toString" with an EMPTY argument object validates — the claim
would report "toString" missing, since it is not a key of the mapping
(second conjunct), but the source\u0027s `in` test sees the inherited
`Object.prototype.toString` through the prototype chain. -/
theorem validator_inherited_key_counterexample :
    validateToolArguments (some (Json.str "W")) (Json.obj []) [c5protoTool] = .valid ∧
    (([] : List (String × Json)).any (fun p => p.1 == "toString")) = false :=
  ⟨rfl, rfl⟩

/-- C6: the context summarizer returns its input unchanged when at most two
non-system messages exist; with more, its output on a successful
summarization call is exactly the original system messages, one synthetic
user message prefixed "Conversation summary: ", and the last two non-system
messages verbatim — so it begins with the system messages, ends with the
last two non-system messages and never has more messages than its input;
on a failed summarization call the summary message is silently dropped. -/
theorem summarizeContext_spec (msgs : List Message) (s em : String) :
    ((msgs.filter (fun m => !(m.role == Role.system))).length ≤ 2 →
      ∀ r, summarizeContext msgs r = msgs) ∧
    (2 < (msgs.filter (fun m => !(m.role == Role.system))).length →
      (summarizeContext msgs (.ok s) =
        msgs.filter (fun m => m.role == Role.system) ++
        [⟨Role.human, "Conversation summary: " ++ s⟩] ++
        (msgs.filter (fun m => !(m.role == Role.system))).drop
          ((msgs.filter (fun m => !(m.role == Role.system))).length - 2)) ∧
      (summarizeContext msgs (.ok s)).length ≤ msgs.length ∧
      (summarizeContext msgs (.error em) =
        msgs.filter (fun m => m.role == Role.system) ++
        (msgs.filter (fun m => !(m.role == Role.system))).drop
          ((msgs.filter (fun m => !(m.role == Role.system))).length - 2)) ∧
      (summarizeContext msgs (.error em)).length ≤ msgs.length) := by
  have hpart := length_sys_partition msgs
  constructor
  · intro h r
    simp only [summarizeContext]
    rw [if_pos h]
  · intro h
    have hne : ¬ (msgs.filter (fun m => !(m.role == Role.system))).length ≤ 2 := by omega
    have hok : summarizeContext msgs (.ok s) =
        msgs.filter (fun m => m.role == Role.system) ++
        [⟨Role.human, "Conversation summary: " ++ s⟩] ++
        (msgs.filter (fun m => !(m.role == Role.system))).drop
          ((msgs.filter (fun m => !(m.role == Role.system))).length - 2) := by
      simp only [summarizeContext]
      rw [if_neg hne]
    have herr : summarizeContext msgs (.error em) =
        msgs.filter (fun m => m.role == Role.system) ++
        (msgs.filter (fun m => !(m.role == Role.system))).drop
          ((msgs.filter (fun m => !(m.role == Role.system))).length - 2) := by
      simp only [summarizeContext]
      rw [if_neg hne]
    refine ⟨hok, ?_, herr, ?_⟩
    · rw [hok]
      simp only [List.length_append, List.length_cons, List.length_nil, List.length_drop]
      omega
    · rw [herr]
      simp only [List.length_append, List.length_drop]
      omega

/-- Conversation with two non-system messages (nothing to compress). -/
def c6short : List Message :=
  [⟨Role.system, "S"⟩, ⟨Role.human, "a"⟩, ⟨Role.ai, "b"⟩]

/-- Conversation with three non-system messages. -/
def c6long : List Message :=
  [⟨Role.system, "S"⟩, ⟨Role.human, "a"⟩, ⟨Role.ai, "b"⟩, ⟨Role.human, "c"⟩]

theorem summarizeContext_spec_witness :
    summarizeContext c6short (.ok "sum") = c6short ∧
    summarizeContext c6long (.ok "sum") =
      [⟨Role.system, "S"⟩, ⟨Role.human, "Conversation summary: sum"⟩,
       ⟨Role.ai, "b"⟩, ⟨Role.human, "c"⟩] ∧
    summarizeContext c6long (.error "boom") =
      [⟨Role.system, "S"⟩, ⟨Role.ai, "b"⟩, ⟨Role.human, "c"⟩] := by
  refine ⟨(summarizeContext_spec c6short "sum" "boom").1 (by decide) _, ?_, ?_⟩
  · have h := ((summarizeContext_spec c6long "sum" "boom").2 (by decide)).1
    rw [h]
    rfl
  · have h := ((summarizeContext_spec c6long "sum" "boom").2 (by decide)).2.2.1
    rw [h]
    rfl

theorem decideAction_components (cfg : AgentConfig) (env : Env) (it : Nat) (task : String)
    (tools : List Tool) (msgs : List Message) (resp : String)
    (hit : ¬ cfg.maxIterations ≤ it)
    (hllm : env.decideLLM it = .ok resp) :
    (decideAction cfg env it task tools msgs).decision = (decideParsePhase resp tools msgs).1 ∧
    (decideAction cfg env it task tools msgs).msgs = (decideParsePhase resp tools msgs).2 := by
  simp only [decideAction]
  rw [if_neg hit]
  simp [hllm]

theorem handleParsedJson_end (js resp : String) (tools : List Tool) (msgs : List Message)
    (fs : List (String × Json))
    (hp : jsonParse js = some (Json.obj fs))
    (hact : getField (Json.obj fs) "action" = some (Json.str "end")) :
    (handleParsedJson js resp tools msgs).1.action = some (Json.str "respond") := by
  have hraw : decisionActionRaw (Json.obj fs) = Json.str "end" := by
    simp [decisionActionRaw, hact, Json.truthy]
  have hout : decisionActionOut (Json.obj fs) = some (Json.str "respond") := by
    simp [decisionActionOut, hraw, (show (Json.str "end" == Json.str "end") = true from rfl)]
  simp [handleParsedJson, hp, isNullJson, hraw, hout,
    (show (Json.str "end" == Json.str "end") = true from rfl),
    (show (Json.str "respond" == Json.str "call_tool") = false from rfl)]

theorem handleParsedJson_call_tool (js resp : String) (tools : List Tool) (msgs : List Message)
    (fs : List (String × Json))
    (hp : jsonParse js = some (Json.obj fs))
    (hact : getField (Json.obj fs) "action" = some (Json.str "call_tool")) :
    handleParsedJson js resp tools msgs =
      (match validateToolArguments (decisionToolName (Json.obj fs))
          (decisionArgs (Json.obj fs)) tools with
       | .valid =>
         (⟨some (Json.str "call_tool"), decisionToolName (Json.obj fs),
           getField (Json.obj fs) "arguments", getField (Json.obj fs) "message"⟩, msgs)
       | .invalid e =>
         (respondMsg ("Tool argument validation failed: " ++ e),
          msgs ++ [validationCorrective (decisionToolName (Json.obj fs)) e])) := by
  have hraw : decisionActionRaw (Json.obj fs) = Json.str "call_tool" := by
    simp [decisionActionRaw, hact, Json.truthy]
  have hout : decisionActionOut (Json.obj fs) = some (Json.str "call_tool") := by
    simp [decisionActionOut, hraw, hact,
      (show (Json.str "call_tool" == Json.str "end") = false from rfl)]
  simp [handleParsedJson, hp, isNullJson, hraw, hout,
    (show (Json.str "call_tool" == Json.str "end") = false from rfl),
    (show (Json.str "call_tool" == Json.str "call_tool") = true from rfl)]

/-- C8 (amended): whenever the extracted JSON parses to an object whose
action field is the string "end", the decide phase of the SIMPLIFIED agent
returns a decision whose action field is "respond" instead, unconditionally
— the conversation history `msgs`, the task and the tools are universally
quantified and play no part.  The LangGraph `UtcpAgent` performs no such
downgrade: under the same kind of parsed decision its decide node stores
the string "end" itself as the next action, and `routeDecision` sends that
value neither to the respond node nor to the execute node — the routing map
sends it straight to END. -/
theorem end_action_downgraded (cfg : AgentConfig) (env : Env) (it : Nat) (task : String)
    (tools : List Tool) (msgs : List Message) (resp js : String) (v : Json)
    (st : UtcpState) (resp2 js2 : String) (v2 : Json)
    (hit : ¬ cfg.maxIterations ≤ it)
    (hllm : env.decideLLM it = .ok resp)
    (hex : extractJsonStr resp = some js)
    (hp : jsonParse js = some v)
    (hact : getField v "action" = some (Json.str "end"))
    (hit2 : ¬ cfg.maxIterations ≤ st.iterationCount)
    (hllm2 : env.decideLLM st.iterationCount = .ok resp2)
    (hex2 : utcpExtract (trimStr resp2) = some js2)
    (hp2 : jsonParse js2 = some v2)
    (hact2 : getField v2 "action" = some (Json.str "end")) :
    (decideAction cfg env it task tools msgs).decision.action = some (Json.str "respond") ∧
    (utcpDecideNode cfg env st).nextAction = Json.str "end" ∧
    utcpRoute (utcpDecideNode cfg env st).nextAction ≠ Json.str "respond" ∧
    utcpRoute (utcpDecideNode cfg env st).nextAction ≠ Json.str "call_tool" := by
  have hna : (utcpDecideNode cfg env st).nextAction = Json.str "end" := by
    obtain ⟨fs2, rfl⟩ := getField_some_obj hact2
    simp only [utcpDecideNode]
    rw [if_neg hit2]
    simp only [hllm2]
    show (utcpDecideParse (trimStr resp2)).1 = Json.str "end"
    simp [utcpDecideParse, hex2, hp2, isNullJson, hact2, Json.truthy]
  refine ⟨?_, hna, ?_, ?_⟩
  · obtain ⟨fs, rfl⟩ := getField_some_obj hact
    rw [(decideAction_components cfg env it task tools msgs resp hit hllm).1,
      decideParsePhase_of_parse tools msgs hex hp]
    exact handleParsedJson_end js resp tools msgs fs hp hact
  · rw [hna]
    intro hcontra
    have hq : Json.str "end" = Json.str "respond" := hcontra
    simp at hq
  · rw [hna]
    intro hcontra
    have hq : Json.str "end" = Json.str "call_tool" := hcontra
    simp at hq

/-- Environment whose model answers the decide prompt with an explicit end
action. -/
def c8env : Env :=
  ⟨fun _ => .ok "say goodbye",
   fun _ _ => [],
   fun _ => .ok "\x7b\"action\":\"end\"\x7d",
   fun _ => .ok "summary",
   fun _ _ _ => .ok (Json.str "data"),
   fun _ _ => .ok [],
   fun _ => .ok "goodbye"⟩

theorem end_action_downgraded_witness :
    (decideAction c1cfg c8env 1 "task" [] [⟨Role.human, "bye"⟩]).decision.action =
      some (Json.str "respond") ∧
    (utcpDecideNode c1cfg c8env
      ⟨[⟨Role.human, "bye"⟩], "say goodbye", [], Json.str "decide_action", none, 1, none⟩).nextAction =
      Json.str "end" ∧
    utcpRoute (utcpDecideNode c1cfg c8env
      ⟨[⟨Role.human, "bye"⟩], "say goodbye", [], Json.str "decide_action", none, 1, none⟩).nextAction ≠
      Json.str "respond" ∧
    utcpRoute (utcpDecideNode c1cfg c8env
      ⟨[⟨Role.human, "bye"⟩], "say goodbye", [], Json.str "decide_action", none, 1, none⟩).nextAction ≠
      Json.str "call_tool" :=
  end_action_downgraded c1cfg c8env 1 "task" [] [⟨Role.human, "bye"⟩]
    "\x7b\"action\":\"end\"\x7d" "\x7b\"action\":\"end\"\x7d"
    (Json.obj [("action", Json.str "end")])
    ⟨[⟨Role.human, "bye"⟩], "say goodbye", [], Json.str "decide_action", none, 1, none⟩
    "\x7b\"action\":\"end\"\x7d" "\x7b\"action\":\"end\"\x7d"
    (Json.obj [("action", Json.str "end")])
    (by decide) rfl rfl rfl rfl (by decide) rfl rfl rfl rfl

/-- C8 counterexample to any end-to-respond downgrade in the LangGraph
agent: on a model decision that is an explicit end, the parse portion keeps
"end" as the next action (it does not become "respond"), and a whole
`UtcpAgent.chat` run under the default configuration finishes with NO final
response stored — the graph went straight from the decide node to END,
never visiting the respond node (`chat` then falls back to a canned apology
string). -/
theorem utcp_end_not_downgraded_counterexample :
    (utcpDecideParse "\x7b\"action\":\"end\"\x7d").1 = Json.str "end" ∧
    ¬ (utcpDecideParse "\x7b\"action\":\"end\"\x7d").1 = Json.str "respond" ∧
    (utcpChat c1cfg c8env 25 "bye").2.finalResponse = none := by
  refine ⟨rfl, ?_, rfl⟩
  intro hcontra
  have hq : Json.str "end" = Json.str "respond" := hcontra
  simp at hq

/-- C4: when the decide phase parses a call_tool decision whose arguments
fail validation against the searched descriptors, the tool is never
executed — the iteration's steps contain no execute step — the corrective
assistant message is appended to the conversation history, and the
iteration resolves as a respond decision carrying the validation error,
ending the loop (the continue flag is false). -/
theorem validation_failure_ends_loop (cfg : AgentConfig) (env : Env) (it : Nat)
    (msgs : List Message) (resp js : String) (v : Json) (e : String)
    (hit : ¬ cfg.maxIterations ≤ it)
    (hllm : env.decideLLM it = .ok resp)
    (hex : extractJsonStr resp = some js)
    (hp : jsonParse js = some v)
    (hact : getField v "action" = some (Json.str "call_tool"))
    (hval : validateToolArguments (decisionToolName v) (decisionArgs v)
        (env.searchTools it (analyzeTask cfg env it msgs).task) = .invalid e) :
    (runIteration cfg env it msgs).1 =
      [Step.analyze it (analyzeTask cfg env it msgs).task,
       Step.search it (env.searchTools it (analyzeTask cfg env it msgs).task).length,
       Step.decide it (respondMsg ("Tool argument validation failed: " ++ e)),
       Step.respond it (respondText env it)] ∧
    (runIteration cfg env it msgs).2.1 = msgs ++ [validationCorrective (decisionToolName v) e] ∧
    (runIteration cfg env it msgs).2.2 = false ∧
    ∀ st ∈ (runIteration cfg env it msgs).1, isExecuteStep st = false := by
  obtain ⟨fs, rfl⟩ := getField_some_obj hact
  have hd := decideAction_components cfg env it (analyzeTask cfg env it msgs).task
    (env.searchTools it (analyzeTask cfg env it msgs).task) msgs resp hit hllm
  have hparse : decideParsePhase resp (env.searchTools it (analyzeTask cfg env it msgs).task) msgs =
      (respondMsg ("Tool argument validation failed: " ++ e),
       msgs ++ [validationCorrective (decisionToolName (Json.obj fs)) e]) := by
    rw [decideParsePhase_of_parse _ msgs hex hp,
      handleParsedJson_call_tool js resp _ msgs fs hp hact, hval]
  have hdec := hd.1.trans (by rw [hparse])
  have hmsgs := hd.2.trans (by rw [hparse])
  have hrun : runIteration cfg env it msgs =
      ([Step.analyze it (analyzeTask cfg env it msgs).task,
        Step.search it (env.searchTools it (analyzeTask cfg env it msgs).task).length,
        Step.decide it (respondMsg ("Tool argument validation failed: " ++ e)),
        Step.respond it (respondText env it)],
       msgs ++ [validationCorrective (decisionToolName (Json.obj fs)) e], false) := by
    simp only [runIteration, hdec, hmsgs]
    simp [ParsedDecision.isAction, respondMsg]
  refine ⟨by rw [hrun], by rw [hrun], by rw [hrun], ?_⟩
  intro st hst
  rw [hrun] at hst
  fin_cases hst <;> rfl

/-- Environment for the C4 witness: the search returns a descriptor
requiring "q" and the model proposes calling it with empty arguments
(Scenario 2 of the specification). -/
def c4env : Env :=
  ⟨fun _ => .ok "search the news",
   fun _ _ => [c5tool],
   fun _ => .ok "\x7b\"action\":\"call_tool\",\"tool_name\":\"X\",\"arguments\":\x7b\x7d\x7d",
   fun _ => .ok "summary",
   fun _ _ _ => .ok (Json.str "data"),
   fun _ _ => .ok [],
   fun _ => .ok "final answer"⟩

theorem validation_failure_ends_loop_witness :
    (runIteration c1cfg c4env 1 []).1 =
      [Step.analyze 1 (analyzeTask c1cfg c4env 1 []).task,
       Step.search 1 (c4env.searchTools 1 (analyzeTask c1cfg c4env 1 []).task).length,
       Step.decide 1 (respondMsg
         "Tool argument validation failed: Missing required parameters: q"),
       Step.respond 1 (respondText c4env 1)] ∧
    (runIteration c1cfg c4env 1 []).2.1 =
      [] ++ [validationCorrective (decisionToolName (Json.obj
        [("action", Json.str "call_tool"), ("tool_name", Json.str "X"),
         ("arguments", Json.obj [])])) "Missing required parameters: q"] ∧
    (runIteration c1cfg c4env 1 []).2.2 = false ∧
    ∀ st ∈ (runIteration c1cfg c4env 1 []).1, isExecuteStep st = false :=
  validation_failure_ends_loop c1cfg c4env 1 []
    "\x7b\"action\":\"call_tool\",\"tool_name\":\"X\",\"arguments\":\x7b\x7d\x7d"
    "\x7b\"action\":\"call_tool\",\"tool_name\":\"X\",\"arguments\":\x7b\x7d\x7d"
    (Json.obj [("action", Json.str "call_tool"), ("tool_name", Json.str "X"),
      ("arguments", Json.obj [])])
    "Missing required parameters: q" (by decide) rfl rfl rfl rfl rfl

/-- C3 (amended): when a valid tool call's execution fails with an error
mentioning variables, the execute phase surfaces an error record naming the
tool's required variables, nothing is appended to the stored history, and —
contrary to the original claim — the simplified agent's loop does not
terminate on it: the iteration reports that the loop continues, so the run
proceeds to another analyze/search/decide cycle, bounded only by
`maxIterations`. -/
theorem missing_variable_error_retries (cfg : AgentConfig) (env : Env) (it : Nat)
    (msgs : List Message) (resp js : String) (v : Json) (em : String) (vs : List String)
    (hit : ¬ cfg.maxIterations ≤ it)
    (hllm : env.decideLLM it = .ok resp)
    (hex : extractJsonStr resp = some js)
    (hp : jsonParse js = some v)
    (hact : getField v "action" = some (Json.str "call_tool"))
    (hval : validateToolArguments (decisionToolName v) (decisionArgs v)
        (env.searchTools it (analyzeTask cfg env it msgs).task) = .valid)
    (htool : env.callTool it (decisionToolName v) (decisionArgs v) = .error em)
    (hnp1 : substrB "Missing required" em = false)
    (hnp2 : substrB "parameter" em = false)
    (hvar : substrB "variable" em = true)
    (hvars : env.requiredVars it (decisionToolName v) = .ok vs) :
    (runIteration cfg env it msgs).2.2 = true ∧
    (runIteration cfg env it msgs).2.1 = msgs ∧
    (runIteration cfg env it msgs).1 =
      [Step.analyze it (analyzeTask cfg env it msgs).task,
       Step.search it (env.searchTools it (analyzeTask cfg env it msgs).task).length,
       Step.decide it ⟨some (Json.str "call_tool"), decisionToolName v,
         getField v "arguments", getField v "message"⟩,
       Step.execute it (.err ("Tool " ++ jsDisplay (decisionToolName v) ++
         " requires the following variables to be set: " ++
         ", ".intercalate vs ++ ".") false)] := by
  obtain ⟨fs, rfl⟩ := getField_some_obj hact
  have hd := decideAction_components cfg env it (analyzeTask cfg env it msgs).task
    (env.searchTools it (analyzeTask cfg env it msgs).task) msgs resp hit hllm
  have hparse : decideParsePhase resp (env.searchTools it (analyzeTask cfg env it msgs).task) msgs =
      (⟨some (Json.str "call_tool"), decisionToolName (Json.obj fs),
        getField (Json.obj fs) "arguments", getField (Json.obj fs) "message"⟩, msgs) := by
    rw [decideParsePhase_of_parse _ msgs hex hp,
      handleParsedJson_call_tool js resp _ msgs fs hp hact, hval]
  have hdec := hd.1.trans (by rw [hparse])
  have hmsgs := hd.2.trans (by rw [hparse])
  have hargs : (⟨some (Json.str "call_tool"), decisionToolName (Json.obj fs),
      getField (Json.obj fs) "arguments", getField (Json.obj fs) "message"⟩ :
        ParsedDecision).argsOrEmpty = decisionArgs (Json.obj fs) := rfl
  have hexec : executeTool env it (decisionToolName (Json.obj fs))
      (decisionArgs (Json.obj fs)) msgs =
      (.err ("Tool " ++ jsDisplay (decisionToolName (Json.obj fs)) ++
        " requires the following variables to be set: " ++
        ", ".intercalate vs ++ ".") false, msgs) := by
    simp [executeTool, htool, hnp1, hnp2, hvar, hvars]
  have hrun : runIteration cfg env it msgs =
      ([Step.analyze it (analyzeTask cfg env it msgs).task,
        Step.search it (env.searchTools it (analyzeTask cfg env it msgs).task).length,
        Step.decide it ⟨some (Json.str "call_tool"), decisionToolName (Json.obj fs),
          getField (Json.obj fs) "arguments", getField (Json.obj fs) "message"⟩,
        Step.execute it (.err ("Tool " ++ jsDisplay (decisionToolName (Json.obj fs)) ++
          " requires the following variables to be set: " ++
          ", ".intercalate vs ++ ".") false)], msgs, true) := by
    simp only [runIteration, hdec, hmsgs, hargs, hexec]
    simp [ParsedDecision.isAction,
      (show (("call_tool" : String) == "respond") = false from rfl),
      (show (("call_tool" : String) == "call_tool") = true from rfl)]
  exact ⟨by rw [hrun], by rw [hrun], by rw [hrun]⟩

/-- Environment where the only tool always fails with a variable error
whose required-variable lookup reports API_KEY. -/
def c3env : Env :=
  ⟨fun _ => .ok "find data",
   fun _ _ => [⟨"t", "tool t", none⟩],
   fun _ => .ok "\x7b\"action\":\"call_tool\",\"tool_name\":\"t\",\"arguments\":\x7b\x7d\x7d",
   fun _ => .ok "summary",
   fun _ _ _ => .error "missing variable FOO",
   fun _ _ => .ok ["API_KEY"],
   fun _ => .ok "final answer"⟩

theorem missing_variable_error_retries_witness :
    (runIteration c1cfg c3env 1 []).2.2 = true ∧
    (runIteration c1cfg c3env 1 []).2.1 = [] ∧
    (runIteration c1cfg c3env 1 []).1 =
      [Step.analyze 1 (analyzeTask c1cfg c3env 1 []).task,
       Step.search 1 (c3env.searchTools 1 (analyzeTask c1cfg c3env 1 []).task).length,
       Step.decide 1 ⟨some (Json.str "call_tool"),
         decisionToolName (Json.obj [("action", Json.str "call_tool"),
           ("tool_name", Json.str "t"), ("arguments", Json.obj [])]),
         getField (Json.obj [("action", Json.str "call_tool"),
           ("tool_name", Json.str "t"), ("arguments", Json.obj [])]) "arguments",
         getField (Json.obj [("action", Json.str "call_tool"),
           ("tool_name", Json.str "t"), ("arguments", Json.obj [])]) "message"⟩,
       Step.execute 1 (.err ("Tool " ++ jsDisplay (decisionToolName
           (Json.obj [("action", Json.str "call_tool"),
             ("tool_name", Json.str "t"), ("arguments", Json.obj [])])) ++
         " requires the following variables to be set: " ++
         ", ".intercalate ["API_KEY"] ++ ".") false)] :=
  missing_variable_error_retries c1cfg c3env 1 []
    "\x7b\"action\":\"call_tool\",\"tool_name\":\"t\",\"arguments\":\x7b\x7d\x7d"
    "\x7b\"action\":\"call_tool\",\"tool_name\":\"t\",\"arguments\":\x7b\x7d\x7d"
    (Json.obj [("action", Json.str "call_tool"), ("tool_name", Json.str "t"),
      ("arguments", Json.obj [])])
    "missing variable FOO" ["API_KEY"]
    (by decide) rfl rfl rfl rfl rfl rfl rfl rfl rfl rfl

/-- Environment for the C3 counterexample run: the tool call of iteration 1
fails with a variable error, after which the model chooses to respond in
iteration 2. -/
def c3cex : Env :=
  ⟨fun _ => .ok "find data",
   fun _ _ => [⟨"t", "tool t", none⟩],
   fun it => .ok (if it == 1
     then "\x7b\"action\":\"call_tool\",\"tool_name\":\"t\",\"arguments\":\x7b\x7d\x7d"
     else "\x7b\"action\":\"respond\"\x7d"),
   fun _ => .ok "summary",
   fun _ _ _ => .error "missing variable FOO",
   fun _ _ => .ok ["API_KEY"],
   fun _ => .ok "final answer"⟩

/-- C3 counterexample: in a run whose first tool call fails with a
missing-variable error naming API_KEY, the trace contains the execute step
carrying the message that names the variable AND a decide step of a second
iteration — the loop performed further iterations instead of terminating,
contradicting the claim. -/
theorem missing_variable_counterexample :
    decideIters (stream c1cfg c3cex [] "hi") = [1, 2] ∧
    (stream c1cfg c3cex [] "hi").any (fun st => match st with
      | Step.execute _ (ExecResult.err m false) =>
        m == "Tool t requires the following variables to be set: API_KEY."
      | _ => false) = true :=
  ⟨rfl, rfl⟩

/-- C7 (amended): the depth-tracking scanner the claim describes — walking
forward, treating characters under a pending escape and braces inside
string literals as non-structural — belongs to `SimplifiedUtcpAgent`: on a
decision text with no json code fence, formed of a prose prefix without
braces, a brace-balanced span starting at the first opening brace, and an
arbitrary suffix, that scanner extracts exactly the span and hands exactly
that substring to JSON parsing, ignoring the surrounding prose.  The
`UtcpAgent.decideAction` the claim cites instead falls back to a greedy
first-brace-to-last-brace regular expression, which agrees with the
balanced span only when the suffix after the span contains no closing
brace. -/
theorem brace_scanner_extracts (p j t : String)
    (hfence : fenceExtract (p ++ j ++ t) = none)
    (hp : '\x7b' ∉ p.toList)
    (hhead : j.toList.head? = some '\x7b')
    (hscan : scanSpan j.toList 0 false false = some j.toList) :
    extractJsonStr (p ++ j ++ t) = some j ∧
    (∀ tools msgs, decideParsePhase (p ++ j ++ t) tools msgs =
      handleParsedJson j (p ++ j ++ t) tools msgs) ∧
    (utcpFence (p ++ j ++ t) = none → '\x7d' ∉ t.toList →
      utcpExtract (p ++ j ++ t) = some j) := by
  obtain ⟨rest, hj⟩ : ∃ rest, j.toList = '\x7b' :: rest := by
    cases hjl : j.toList with
    | nil => rw [hjl] at hhead; exact absurd hhead (by simp)
    | cons c cs =>
      rw [hjl] at hhead
      simp only [List.head?_cons, Option.some.injEq] at hhead
      exact ⟨cs, by rw [hhead]⟩
  have hlist : (p ++ j ++ t).toList = p.toList ++ '\x7b' :: (rest ++ t.toList) := by
    show (p ++ j ++ t).data = _
    rw [String.data_append, String.data_append]
    have : j.data = '\x7b' :: rest := hj
    rw [List.append_assoc, this]
    rfl
  have hx : extractJsonStr (p ++ j ++ t) = some j := by
    have hs2 : scanSpan ('\x7b' :: (rest ++ t.toList)) 0 false false = some j.toList := by
      have h2 := scanSpan_append t.toList j.toList 0 false false j.toList hscan
      rw [hj, List.cons_append] at h2
      rw [hj]
      exact h2
    simp only [extractJsonStr, hfence, braceExtract, hlist,
      fromFirstBrace_append p.toList (rest ++ t.toList) hp, hs2, Option.map_some']
    rfl
  have hne : (j == "") = false := by
    rw [beq_eq_false_iff_ne]
    intro hcontra
    rw [hcontra] at hj
    exact List.noConfusion hj
  refine ⟨hx, fun tools msgs => by simp [decideParsePhase, hx, hne], ?_⟩
  intro huf ht
  obtain ⟨pr, hpr⟩ := scanSpan_ends_close j.toList 0 false false j.toList hscan
  have hjt : ('\x7b' :: (rest ++ t.toList)) = j.toList ++ t.toList := by
    rw [hj]
    rfl
  have hfb : fromFirstBrace (p ++ j ++ t).toList = some (j.toList ++ t.toList) := by
    rw [hlist, fromFirstBrace_append p.toList (rest ++ t.toList) hp, hjt]
  have hall : ∀ c ∈ t.toList.reverse, (!(c == '\x7d')) = true := by
    intro c hc
    rw [List.mem_reverse] at hc
    simp only [Bool.not_eq_true']
    rw [beq_eq_false_iff_ne]
    intro hcEq
    exact ht (hcEq ▸ hc)
  have hdrop : (j.toList ++ t.toList).reverse.dropWhile (fun c => !(c == '\x7d')) =
      '\x7d' :: pr.reverse := by
    rw [List.reverse_append, hpr, List.reverse_append,
      dropWhile_append_all _ _ hall]
    simp [List.dropWhile_cons]
  simp only [utcpExtract, huf, utcpBrace, hfb, hdrop]
  simp [← hpr]

theorem brace_scanner_extracts_witness :
    extractJsonStr ("I think the answer is " ++ "\x7b\"action\": \"respond\"\x7d" ++
      " based on...") = some "\x7b\"action\": \"respond\"\x7d" ∧
    decideParsePhase ("I think the answer is " ++ "\x7b\"action\": \"respond\"\x7d" ++
        " based on...") [] [] =
      handleParsedJson "\x7b\"action\": \"respond\"\x7d"
        ("I think the answer is " ++ "\x7b\"action\": \"respond\"\x7d" ++ " based on...")
        [] [] ∧
    utcpExtract ("I think the answer is " ++ "\x7b\"action\": \"respond\"\x7d" ++
        " based on...") = some "\x7b\"action\": \"respond\"\x7d" :=
  ⟨(brace_scanner_extracts "I think the answer is " "\x7b\"action\": \"respond\"\x7d"
      " based on..." rfl (by decide) rfl rfl).1,
   (brace_scanner_extracts "I think the answer is " "\x7b\"action\": \"respond\"\x7d"
      " based on..." rfl (by decide) rfl rfl).2.1 [] [],
   (brace_scanner_extracts "I think the answer is " "\x7b\"action\": \"respond\"\x7d"
      " based on..." rfl (by decide) rfl rfl).2.2 rfl (by decide)⟩

/-- C7 counterexample for the cited `UtcpAgent.decideAction`: when a
closing brace occurs in the prose after the balanced object, the greedy
first-brace-to-last-brace regular expression extracts past the balanced
span (and the parse of that over-long span fails, routing to respond with
the raw text), while the simplified agent\u0027s depth-tracking scanner on the
very same input extracts exactly the balanced span. -/
theorem utcp_greedy_regex_counterexample :
    utcpExtract "I think \x7b\"action\": \"respond\"\x7d :-\x7d" =
      some "\x7b\"action\": \"respond\"\x7d :-\x7d" ∧
    ¬ utcpExtract "I think \x7b\"action\": \"respond\"\x7d :-\x7d" =
        some "\x7b\"action\": \"respond\"\x7d" ∧
    (utcpDecideParse "I think \x7b\"action\": \"respond\"\x7d :-\x7d").1 =
      Json.str "respond" ∧
    (utcpDecideParse "I think \x7b\"action\": \"respond\"\x7d :-\x7d").2 =
      some (respondMsg "I think \x7b\"action\": \"respond\"\x7d :-\x7d") ∧
    extractJsonStr "I think \x7b\"action\": \"respond\"\x7d :-\x7d" =
      some "\x7b\"action\": \"respond\"\x7d" := by
  refine ⟨rfl, ?_, rfl, rfl, rfl⟩
  intro hcontra
  have h0 : utcpExtract "I think \x7b\"action\": \"respond\"\x7d :-\x7d" =
      some "\x7b\"action\": \"respond\"\x7d :-\x7d" := rfl
  rw [h0] at hcontra
  have h2 := Option.some.inj hcontra
  simp at h2

/-- C9 counterexample: in the LangGraph agent, the model output consisting
of exactly a call_tool object with no tool name parses to a decision whose
next action is "call_tool" — which the routing map sends to the execute
node — while its decision data carries no tool name at all; so a call_tool
decision of the decide phase does not always carry a non-empty tool name,
and the execute phase is reached with an absent one. -/
theorem utcp_call_tool_without_name_counterexample :
    (utcpDecideParse "\x7b\"action\":\"call_tool\"\x7d").1 = Json.str "call_tool" ∧
    utcpRoute (utcpDecideParse "\x7b\"action\":\"call_tool\"\x7d").1 = Json.str "call_tool" ∧
    ((utcpDecideParse "\x7b\"action\":\"call_tool\"\x7d").2.map ParsedDecision.toolName) =
      some none :=
  ⟨rfl, rfl, rfl⟩

/-- C9 (amended): in the simplified agent every call_tool decision that
leaves the decide phase carries a tool name equal to the name of one of the
searched descriptors — so the name is present, and non-empty whenever the
searched descriptor names are; in the LangGraph agent the decide phase can
produce a call_tool decision with an absent tool name and the execute node
is reached, which itself guards by appending an error message and routing
to respond. -/
theorem call_tool_decision_carries_searched_name
    (cfg : AgentConfig) (env : Env) (it : Nat) (task : String) (tools : List Tool)
    (msgs : List Message) (cfg2 : AgentConfig) (env2 : Env) (it2 : Nat)
    (dec2 : Option ParsedDecision) (msgs2 : List Message)
    (h : (decideAction cfg env it task tools msgs).decision.isAction "call_tool" = true)
    (htn : truthyOpt (match dec2 with | some d => d.toolName | none => none) = false) :
    (∃ tl ∈ tools,
      (decideAction cfg env it task tools msgs).decision.toolName = some (Json.str tl.name)) ∧
    utcpExecuteTools cfg2 env2 it2 dec2 msgs2 =
      (msgs2 ++ [⟨Role.ai, "Error: No tool specified"⟩], "respond") := by
  constructor
  · by_cases hit : cfg.maxIterations ≤ it
    · rw [(by simp [decideAction, hit] :
        (decideAction cfg env it task tools msgs).decision = forcedDecision)] at h
      exact absurd h (by decide)
    · cases hllm : env.decideLLM it with
      | error e =>
        rw [(by simp [decideAction, hit, hllm] :
          (decideAction cfg env it task tools msgs).decision =
            respondMsg ("I encountered an error: " ++ e))] at h
        exact absurd h (by simp [ParsedDecision.isAction, respondMsg])
      | ok resp =>
        rw [(decideAction_components cfg env it task tools msgs resp hit hllm).1] at h ⊢
        cases hex : extractJsonStr resp with
        | none =>
          rw [(by simp [decideParsePhase, hex] :
            (decideParsePhase resp tools msgs).1 = respondPlain)] at h
          exact absurd h (by decide)
        | some js =>
          by_cases hjs : (js == "") = true
          · rw [(by simp [decideParsePhase, hex, hjs] :
              (decideParsePhase resp tools msgs).1 = respondPlain)] at h
            exact absurd h (by decide)
          have hph : (decideParsePhase resp tools msgs).1 =
              (handleParsedJson js resp tools msgs).1 := by
            simp [decideParsePhase, hex, hjs]
          rw [hph] at h ⊢
          cases hjp : jsonParse js with
          | none =>
            rw [(by simp [handleParsedJson, hjp] :
              (handleParsedJson js resp tools msgs).1 = respondMsg resp)] at h
            exact absurd h (by simp [ParsedDecision.isAction, respondMsg])
          | some v =>
            cases hnull : isNullJson v with
            | true =>
              rw [(by simp [handleParsedJson, hjp, hnull] :
                (handleParsedJson js resp tools msgs).1 = respondMsg resp)] at h
              exact absurd h (by simp [ParsedDecision.isAction, respondMsg])
            | false =>
              by_cases hend : (decisionActionRaw v == Json.str "end") = true
              · rw [(by simp [handleParsedJson, hjp, hnull, hend,
                  (show (Json.str "respond" == Json.str "call_tool") = false from rfl)] :
                  (handleParsedJson js resp tools msgs).1 =
                    ⟨decisionActionOut v, decisionToolName v,
                     getField v "arguments", getField v "message"⟩)] at h
                have hout : decisionActionOut v = some (Json.str "respond") := by
                  simp [decisionActionOut, hend]
                simp [ParsedDecision.isAction, hout] at h
              · by_cases hct : (decisionActionRaw v == Json.str "call_tool") = true
                · have hred : handleParsedJson js resp tools msgs =
                      (match validateToolArguments (decisionToolName v)
                          (decisionArgs v) tools with
                       | .valid =>
                         (⟨decisionActionOut v, decisionToolName v,
                           getField v "arguments", getField v "message"⟩, msgs)
                       | .invalid e =>
                         (respondMsg ("Tool argument validation failed: " ++ e),
                          msgs ++ [validationCorrective (decisionToolName v) e])) := by
                    simp [handleParsedJson, hjp, hnull, hend, hct]
                  cases hv : validateToolArguments (decisionToolName v)
                      (decisionArgs v) tools with
                  | invalid e =>
                    rw [hred, hv] at h
                    exact absurd h (by simp [ParsedDecision.isAction, respondMsg])
                  | valid =>
                    have hfin : (handleParsedJson js resp tools msgs).1 =
                        ⟨decisionActionOut v, decisionToolName v,
                         getField v "arguments", getField v "message"⟩ := by
                      rw [hred, hv]
                    rw [hfin]
                    cases hfind : tools.find?
                        (fun u => nameMatches (decisionToolName v) u.name) with
                    | none =>
                      simp only [validateToolArguments, hfind] at hv
                      exact absurd hv (by simp)
                    | some tl =>
                      refine ⟨tl, List.mem_of_find?_eq_some hfind, ?_⟩
                      have hm := List.find?_some hfind
                      show decisionToolName v = some (Json.str tl.name)
                      cases htln : decisionToolName v with
                      | none =>
                        rw [htln] at hm
                        exact Bool.noConfusion (show false = true from hm)
                      | some a =>
                        rw [htln] at hm
                        have ha : a = Json.str tl.name := by
                          cases a with
                          | str s2 =>
                            have hs2 : s2 = tl.name :=
                              eq_of_beq (show (s2 == tl.name) = true from hm)
                            rw [hs2]
                          | null => exact Bool.noConfusion (show false = true from hm)
                          | bool b => exact Bool.noConfusion (show false = true from hm)
                          | num l => exact Bool.noConfusion (show false = true from hm)
                          | arr l => exact Bool.noConfusion (show false = true from hm)
                          | obj l => exact Bool.noConfusion (show false = true from hm)
                        rw [ha]
                · have hrec : (handleParsedJson js resp tools msgs).1 =
                      ⟨decisionActionOut v, decisionToolName v,
                       getField v "arguments", getField v "message"⟩ := by
                    simp [handleParsedJson, hjp, hnull, hend, hct]
                  rw [hrec] at h
                  have hout : decisionActionOut v = getField v "action" := by
                    simp [decisionActionOut, hend]
                  simp only [ParsedDecision.isAction, hout] at h
                  exfalso
                  cases hga : getField v "action" with
                  | none => rw [hga] at h; simp at h
                  | some a =>
                    rw [hga] at h
                    cases a with
                    | null => simp at h
                    | bool b => simp at h
                    | num l => simp at h
                    | arr l => simp at h
                    | obj l => simp at h
                    | str s3 =>
                      refine hct ?_
                      have hs3 : s3 = "call_tool" :=
                        eq_of_beq (show (s3 == "call_tool") = true from h)
                      have hraw2 : decisionActionRaw v = Json.str "call_tool" := by
                        simp [decisionActionRaw, hga, hs3, Json.truthy]
                      rw [hraw2]
                      rfl
  · simp [utcpExecuteTools, htn]

/-- Environment for the C9 witness: the model proposes a valid call of the
searched tool "t". -/
def c9env : Env :=
  ⟨fun _ => .ok "find data",
   fun _ _ => [⟨"t", "tool t", none⟩],
   fun _ => .ok "\x7b\"action\":\"call_tool\",\"tool_name\":\"t\",\"arguments\":\x7b\"q\":\"x\"\x7d\x7d",
   fun _ => .ok "summary",
   fun _ _ _ => .ok (Json.str "data"),
   fun _ _ => .ok [],
   fun _ => .ok "answer"⟩

theorem call_tool_decision_carries_searched_name_witness :
    (∃ tl ∈ [(⟨"t", "tool t", none⟩ : Tool)],
      (decideAction c1cfg c9env 1 "task" [⟨"t", "tool t", none⟩] []).decision.toolName =
        some (Json.str tl.name)) ∧
    utcpExecuteTools c1cfg c9env 1 (some respondPlain) [] =
      ([⟨Role.ai, "Error: No tool specified"⟩], "respond") :=
  call_tool_decision_carries_searched_name c1cfg c9env 1 "task"
    [⟨"t", "tool t", none⟩] [] c1cfg c9env 1 (some respondPlain) [] rfl rfl

/-- C10: summarization never mutates the stored conversation: the analyze
phase leaves the history exactly as it was, the decide phase only ever
appends to it, swapping the summarizer oracle for any other leaves the
decide phase's stored history unchanged, and when the token estimate of the
prospective decide prompt exceeds the threshold the summarized list is used
only to build the prompt of that single model invocation. -/
theorem summarization_preserves_history (cfg : AgentConfig) (env : Env)
    (f : Nat → Except String String) (it : Nat) (task : String) (tools : List Tool)
    (msgs : List Message)
    (h1 : ¬ cfg.maxIterations ≤ it)
    (h2 : cfg.summarizeThreshold <
      estimateTokenCount (msgs ++ [⟨Role.human, decidePromptText task tools msgs⟩])) :
    (analyzeTask cfg env it msgs).msgs = msgs ∧
    (∃ tail, (decideAction cfg env it task tools msgs).msgs = msgs ++ tail) ∧
    (decideAction cfg (setSummarizer env f) it task tools msgs).msgs =
      (decideAction cfg env it task tools msgs).msgs ∧
    (decideAction cfg env it task tools msgs).prompt =
      summarizeContext msgs (env.summarizeLLM it) ++
        [⟨Role.human, decidePromptText task tools msgs⟩] := by
  refine ⟨rfl, ?_, ?_, ?_⟩
  · simp only [decideAction]
    rw [if_neg h1]
    cases hd : env.decideLLM it with
    | error e => exact ⟨[], by simp [hd]⟩
    | ok r =>
      obtain ⟨tail, ht⟩ := decideParsePhase_msgs r tools msgs
      exact ⟨tail, by simp [hd, ht]⟩
  · simp only [decideAction, setSummarizer]
    rw [if_neg h1, if_neg h1]
    cases hd : env.decideLLM it <;> simp [hd]
  · simp only [decideAction]
    rw [if_neg h1, if_pos h2]
    cases hd : env.decideLLM it <;> simp [hd]

/-- Configuration whose summarization threshold is zero, so every prompt
triggers summarization. -/
def c10cfg : AgentConfig := ⟨3, 10, "p", 0⟩

/-- Environment for the C10 witness. -/
def c10env : Env :=
  ⟨fun _ => .ok "t",
   fun _ _ => [],
   fun _ => .ok "\x7b\"action\":\"respond\"\x7d",
   fun _ => .ok "summary",
   fun _ _ _ => .ok Json.null,
   fun _ _ => .ok [],
   fun _ => .ok "a"⟩

theorem summarization_preserves_history_witness :
    (analyzeTask c10cfg c10env 1 [⟨Role.human, "hello"⟩]).msgs = [⟨Role.human, "hello"⟩] ∧
    (∃ tail, (decideAction c10cfg c10env 1 "task" [] [⟨Role.human, "hello"⟩]).msgs =
      [⟨Role.human, "hello"⟩] ++ tail) ∧
    (decideAction c10cfg (setSummarizer c10env (fun _ => .error "x")) 1 "task" []
      [⟨Role.human, "hello"⟩]).msgs =
      (decideAction c10cfg c10env 1 "task" [] [⟨Role.human, "hello"⟩]).msgs ∧
    (decideAction c10cfg c10env 1 "task" [] [⟨Role.human, "hello"⟩]).prompt =
      summarizeContext [⟨Role.human, "hello"⟩] (c10env.summarizeLLM 1) ++
        [⟨Role.human, decidePromptText "task" [] [⟨Role.human, "hello"⟩]⟩] :=
  summarization_preserves_history c10cfg c10env (fun _ => .error "x") 1 "task" []
    [⟨Role.human, "hello"⟩] (by decide) (by decide)

end ChatUtcp
